import Mathlib

/-
Verification development for the Advanced 2D Physics Simulator
(src/Simulator.py).

Shallow embedding conventions:
  * Python floats are modelled as exact rationals (ℚ); quantities that the
    source computes with `math.sqrt` (vector normalisation in
    `BouncerEntity.on_collision`) are modelled over ℝ.
  * Python `int(x)` (truncation toward zero) is modelled by `pyTrunc`.
  * The pymunk `Space` is external library code; the development models the
    parts of its observable state that the repository's code reads and
    writes: membership of bodies, shapes and constraints (as lists of
    identifiers) and the gravity vector.  Numeric integration and collision
    detection are the integrator's own work; collision *dispatch* and the
    handler callbacks are repository code and are embedded faithfully,
    taking the list of begun contacts of a step as an input.
  * Python objects live on a heap and are referenced from several places
    (`self.entities`, `self.controllable_object`, shape back-references),
    so entities are stored in a `heap` list keyed by identifier, and the
    registry `entities` is a list of identifiers.
-/

namespace PhysicsSim

/-- Model of Python's `int(x)` applied to a real-valued expression:
truncation toward zero. -/
def pyTrunc (x : ℚ) : ℤ := if 0 ≤ x then ⌊x⌋ else -⌊-x⌋

/-- Camera state, from `Camera.__init__` (src/Simulator.py lines 54-64):
view size, pan offset, zoom factor. -/
structure Camera where
  width : ℚ
  height : ℚ
  offset_x : ℚ
  offset_y : ℚ
  zoom : ℚ
  deriving DecidableEq

/-- Camera construction defaults (`Camera.__init__`): offset (0,0), zoom 1. -/
def Camera.mk0 (w h : ℚ) : Camera :=
  { width := w, height := h, offset_x := 0, offset_y := 0, zoom := 1 }

/-- Zoom bounds from `Camera.__init__`: min_zoom = 0.2. -/
def min_zoom : ℚ := 1/5

/-- Zoom bounds from `Camera.__init__`: max_zoom = 3.0. -/
def max_zoom : ℚ := 3

/-- The x coordinate computed inside `Camera.apply` before the final `int`
conversion (line 73): `target_pos[0]*zoom - offset_x*zoom + width/2*(1-zoom)`. -/
def Camera.applyExactX (c : Camera) (p : ℚ × ℚ) : ℚ :=
  p.1 * c.zoom - c.offset_x * c.zoom + c.width / 2 * (1 - c.zoom)

/-- The y coordinate computed inside `Camera.apply` before the final `int`
conversion (line 74). -/
def Camera.applyExactY (c : Camera) (p : ℚ × ℚ) : ℚ :=
  p.2 * c.zoom - c.offset_y * c.zoom + c.height / 2 * (1 - c.zoom)

/-- `Camera.apply` (lines 66-75): world coordinates to screen coordinates,
returning `(int(screen_x), int(screen_y))`. -/
def Camera.apply (c : Camera) (p : ℚ × ℚ) : ℤ × ℤ :=
  (pyTrunc (c.applyExactX p), pyTrunc (c.applyExactY p))

/-- `Camera.screen_to_world` (lines 94-103): screen coordinates to world
coordinates. -/
def Camera.screen_to_world (c : Camera) (p : ℚ × ℚ) : ℚ × ℚ :=
  ((p.1 - c.width / 2 * (1 - c.zoom) + c.offset_x * c.zoom) / c.zoom,
   (p.2 - c.height / 2 * (1 - c.zoom) + c.offset_y * c.zoom) / c.zoom)

/-- `Camera.pan` (lines 111-113): offset adjusted by delta divided by zoom. -/
def Camera.pan (c : Camera) (dx dy : ℚ) : Camera :=
  { c with offset_x := c.offset_x + dx / c.zoom,
           offset_y := c.offset_y + dy / c.zoom }

/-- Round trip world → screen → world through the camera, with the screen
coordinates quantised to integer pixels by `Camera.apply`. -/
def Camera.roundTrip (c : Camera) (w : ℚ × ℚ) : ℚ × ℚ :=
  c.screen_to_world (((c.apply w).1 : ℚ), ((c.apply w).2 : ℚ))

/-- The spec's world-to-screen formula, x component:
screen = (world − pan) × zoom + viewCenter × (1 − zoom). -/
def specScreenX (c : Camera) (p : ℚ × ℚ) : ℚ :=
  (p.1 - c.offset_x) * c.zoom + c.width / 2 * (1 - c.zoom)

/-- The spec's world-to-screen formula, y component. -/
def specScreenY (c : Camera) (p : ℚ × ℚ) : ℚ :=
  (p.2 - c.offset_y) * c.zoom + c.height / 2 * (1 - c.zoom)

/-- Concrete camera used to exhibit the quantisation error of the
world→screen→world round trip: minimum zoom 0.2, no pan, 1000×600 view. -/
def lowZoomCam : Camera :=
  { width := 1000, height := 600, offset_x := 0, offset_y := 0, zoom := 1/5 }

/-- Concrete camera exhibiting that `Camera.apply` is the truncation of the
spec formula, not the formula itself: zoom 1, no pan. -/
def unitZoomCam : Camera :=
  { width := 1000, height := 600, offset_x := 0, offset_y := 0, zoom := 1 }

/- Discrete model of the application state.

The pymunk `Space`'s numeric work (integration, collision detection,
contact resolution) is external library code; the model keeps the parts of
the `Space` the repository code reads and writes: membership of bodies,
shapes and constraints, recorded as lists of identifiers, and the gravity
vector.  Each entity owns exactly one body and exactly one shape, and the
model uses a single identifier for an entity, its body and its shape. -/

/-- pymunk body kinds. -/
inductive BodyType
  | dynamic
  | static
  | kinematic
  deriving DecidableEq

/-- Entity variants of the simulator (`ControllableEntity`, `BoxEntity`,
`BouncerEntity`, `CoinEntity` and the generic `Entity` ball from
`_add_object_at_pos`). -/
inductive EntityKind
  | player
  | box
  | bouncer
  | coin
  | ball
  deriving DecidableEq

/-- Collision type constants (lines 20-24). -/
def collisionTypeOf : EntityKind → Nat
  | .player => 1
  | .coin => 2
  | .bouncer => 3
  | .box => 4
  | .ball => 5

/-- Entity object state relevant to the claims: identity, variant,
`marked_for_removal` flag (line 125) and pygame-sprite liveness (`alive()`
is true while the sprite belongs to a group; `kill()` clears it). -/
structure Entity where
  eid : Nat
  kind : EntityKind
  marked_for_removal : Bool
  alive : Bool
  deriving DecidableEq

/-- Observable pymunk `Space` state: object membership plus gravity. -/
structure Space where
  bodies : List Nat
  shapes : List Nat
  constraints : List Nat
  gravity : ℚ × ℚ
  deriving DecidableEq

/-- The drag pivot joint created in `on_mouse_press` (lines 448-451):
identifier plus the numeric parameters the code sets on it. -/
structure Joint where
  jid : Nat
  maxForce : ℚ
  errorBias : ℚ
  deriving DecidableEq

/-- Application state (`SimulationApp`): the space, the heap of entity
objects (keyed by `eid`; Python objects outlive the registry, e.g. the
`controllable_object` reference), the registry `self.entities` (a list of
identifiers), the controllable reference, score, camera, drag state, the
running flag and a fresh-identifier counter. -/
structure AppState where
  space : Space
  heap : List Entity
  entities : List Nat
  controllable : Option Nat
  score : Nat
  cam : Camera
  mouseJoint : Option Joint
  selectedShape : Option Nat
  running : Bool
  nextId : Nat
  deriving DecidableEq

/-- Dereference an entity object by identifier. -/
def AppState.entity? (s : AppState) (i : Nat) : Option Entity :=
  s.heap.find? (fun e => e.eid == i)

/-- Update the entity object with identifier `i` in place. -/
def AppState.heapSet (s : AppState) (i : Nat) (f : Entity → Entity) : AppState :=
  { s with heap := s.heap.map (fun e => if e.eid = i then f e else e) }

/-- The `marked_for_removal` flag of the entity object `i`. -/
def markedIn (s : AppState) (i : Nat) : Bool :=
  (s.entity? i).any (·.marked_for_removal)

/-- The variant of the entity object `i`. -/
def kindIn (s : AppState) (i : Nat) : Option EntityKind :=
  (s.entity? i).map (·.kind)

/-- pymunk `Space.remove` raises when the object is absent; the checked
variant returns `none` in that case. -/
def Space.removeBody (sp : Space) (b : Nat) : Option Space :=
  if b ∈ sp.bodies then some { sp with bodies := sp.bodies.erase b } else none

/-- Checked shape removal, as `Space.removeBody`. -/
def Space.removeShape (sp : Space) (h : Nat) : Option Space :=
  if h ∈ sp.shapes then some { sp with shapes := sp.shapes.erase h } else none

/-- Checked constraint removal, as `Space.removeBody`. -/
def Space.removeConstraint (sp : Space) (c : Nat) : Option Space :=
  if c ∈ sp.constraints then some { sp with constraints := sp.constraints.erase c }
  else none

/-- `Entity.kill_entity` (lines 182-187) with the external `Space.remove`
failure made explicit: the body is removed only if present, then the shape
only if present, then `self.kill()` detaches the pygame sprite. -/
def kill_entity_checked (i : Nat) (s : AppState) : Option AppState := do
  let sp := s.space
  let sp ← if i ∈ sp.bodies then sp.removeBody i else some sp
  let sp ← if i ∈ sp.shapes then sp.removeShape i else some sp
  some (({ s with space := sp }).heapSet i (fun e => { e with alive := false }))

/-- `Entity.kill_entity` (lines 182-187); the membership checks in the
source make the removals total (see `kill_entity_checked_eq`). -/
def kill_entity (i : Nat) (s : AppState) : AppState :=
  let sp := s.space
  let sp := if i ∈ sp.bodies then { sp with bodies := sp.bodies.erase i } else sp
  let sp := if i ∈ sp.shapes then { sp with shapes := sp.shapes.erase i } else sp
  ({ s with space := sp }).heapSet i (fun e => { e with alive := false })

/-- `Entity.update` (lines 149-158): a flagged entity is killed and the
method returns; otherwise, for DYNAMIC bodies, the sprite rect and image
are resynchronised from the body's position and angle — presentation state
held by the external renderer, so the unflagged branch leaves the model
state unchanged. -/
def entityUpdate (i : Nat) (s : AppState) : AppState :=
  match s.entity? i with
  | none => s
  | some e => if e.marked_for_removal then kill_entity i s else s

/-- Entity construction and registration (`Entity.__init__` lines 116-147
adds body and shape to the space; `BoxEntity.__init__` swaps the default
circle shape for a box shape, lines 210-220, leaving one body and one shape
either way; `_add_object_at_pos` lines 540-543 appends the object to
`self.entities`). -/
def spawnObject (k : EntityKind) (s : AppState) : AppState :=
  let i := s.nextId
  { s with
    space := { s.space with bodies := s.space.bodies ++ [i],
                            shapes := s.space.shapes ++ [i] },
    heap := s.heap ++ [{ eid := i, kind := k, marked_for_removal := false,
                         alive := true }],
    entities := s.entities ++ [i],
    nextId := i + 1 }

/-- The retirement step of `add_player_gui` (lines 507-509): an alive
previous controllable is killed and removed from the registry. -/
def retireControllable (s : AppState) : AppState :=
  match s.controllable with
  | some pid =>
      if (s.entity? pid).any (·.alive) then
        { kill_entity pid s with
          entities := (kill_entity pid s).entities.erase pid }
      else s
  | none => s

/-- `add_player_gui` (lines 503-515): retire the previous controllable,
then spawn a new `ControllableEntity` and record it as the controllable
(the spawned entity's identifier is the counter value before the spawn). -/
def add_player_gui (s : AppState) : AppState :=
  { spawnObject .player (retireControllable s) with
    controllable := some (retireControllable s).nextId }

/-- One spawn request: the GUI buttons call `add_player_gui` for the player
and `_add_object_at_pos` for the other variants. -/
def spawnOne (k : EntityKind) (s : AppState) : AppState :=
  match k with
  | .player => add_player_gui s
  | _ => spawnObject k s

/-- A sequence of spawn requests. -/
def spawnMany (ks : List EntityKind) (s : AppState) : AppState :=
  ks.foldl (fun acc k => spawnOne k acc) s

/-- `reset_simulation` (lines 545-557): kill every registered entity
(iterating over a copy of the list), clear the registry, the controllable
reference and the score, and restore the camera pan and zoom defaults. -/
def reset_simulation (s : AppState) : AppState :=
  let s1 := s.entities.foldl (fun acc i => kill_entity i acc) s
  { s1 with entities := [], controllable := none, score := 0,
            cam := { s1.cam with offset_x := 0, offset_y := 0, zoom := 1 } }

/-- Shape identifiers of the four world-boundary segments added by
`_add_boundaries` (lines 392-410) to the space's built-in static body. -/
def boundaryIds : List Nat := [0, 1, 2, 3]

/-- Initial state from `SimulationApp.__init__`: gravity (0, 900), the four
boundary segments, empty registry, score 0, default camera for the
1000×600 view. -/
def initState : AppState :=
  { space := { bodies := [], shapes := boundaryIds, constraints := [],
               gravity := (0, 900) },
    heap := [], entities := [], controllable := none, score := 0,
    cam := Camera.mk0 1000 600,
    mouseJoint := none, selectedShape := none, running := true, nextId := 4 }

/- Collision dispatch (`_setup_collision_handlers`, lines 412-433). -/

/-- One side of a begun contact, as handed to a begin callback: the shape's
collision type and its `parent_sprite` back-reference (absent on the
boundary segments, hence the `hasattr` checks in the handlers). -/
structure ContactSide where
  ctype : Nat
  parent : Option Nat
  deriving DecidableEq

/-- A begun contact: `arbiter.shapes`, ordered as pymunk presents them to
the matching handler (for the (PLAYER, COIN) pair handler the PLAYER-typed
shape is first). -/
structure ContactEvent where
  a : ContactSide
  b : ContactSide
  deriving DecidableEq

/-- The fixed coin score value (`CoinEntity.__init__`, line 241). -/
def coinValue : Nat := 10

/-- `CoinEntity.on_collected` (lines 243-247): add the coin's value to the
score and set the coin's removal flag. -/
def on_collected (cid : Nat) (s : AppState) : AppState :=
  ({ s with score := s.score + coinValue }).heapSet cid
    (fun e => { e with marked_for_removal := true })

/-- `player_collect_coin_begin` (lines 415-419): if the coin-side shape has
a `parent_sprite` that is a `CoinEntity`, its `on_collected` reaction
fires; the handler returns True either way. -/
def player_collect_coin_begin (ev : ContactEvent) (s : AppState) :
    AppState × Bool :=
  let s1 :=
    match ev.b.parent with
    | some cid =>
        match s.entity? cid with
        | some e => if e.kind = .coin then on_collected cid s else s
        | none => s
    | none => s
  (s1, true)

/-- `bouncer_interaction_begin` (lines 424-433): after normalising which
side is the BOUNCER-typed shape, `BouncerEntity.on_collision` applies an
impulse through the integrator — a velocity change on the other body,
modelled numerically by `bouncer_begin` over ℝ below; it touches neither
the space's object membership nor the entity registry nor any flag, so on
this discrete state the handler's effect is the identity.  The handler
returns True. -/
def bouncer_interaction_begin (_ev : ContactEvent) (s : AppState) :
    AppState × Bool :=
  (s, true)

/-- Collision dispatch for one begun contact, per the handlers registered
in `_setup_collision_handlers`: the (PLAYER, COIN) pair handler and the
wildcard handler on BOUNCER. -/
def dispatchContact (ev : ContactEvent) (s : AppState) : AppState :=
  if ev.a.ctype = 1 ∧ ev.b.ctype = 2 then (player_collect_coin_begin ev s).1
  else if ev.a.ctype = 3 ∨ ev.b.ctype = 3 then
    (bouncer_interaction_begin ev s).1
  else s

/-- `self.space.step(TIME_STEP)` (line 584): the integrator advances the
bodies and invokes the registered begin callbacks for every newly begun
contact; `events` is that contact list (collision detection itself is the
integrator's work). -/
def space_step (events : List ContactEvent) (s : AppState) : AppState :=
  events.foldl (fun acc ev => dispatchContact ev acc) s

/- Keyboard input and the simulation loop. -/

/-- Held-key state read by `handle_keyboard_input` and the WASD block of
`update_simulation`. -/
structure KeyState where
  left : Bool
  right : Bool
  up : Bool
  down : Bool
  keyW : Bool
  keyA : Bool
  keyS : Bool
  keyD : Bool
  deriving DecidableEq

/-- Camera pan speed (`Camera.__init__`, line 64). -/
def pan_speed : ℚ := 15

/-- The pan delta `pan_dx` accumulated from the arrow keys
(lines 570-572). -/
def panDx (k : KeyState) : ℚ :=
  (if k.left then -pan_speed else 0) + (if k.right then pan_speed else 0)

/-- The pan delta `pan_dy` accumulated from the arrow keys
(lines 570, 573-574). -/
def panDy (k : KeyState) : ℚ :=
  (if k.up then -pan_speed else 0) + (if k.down then pan_speed else 0)

/-- `handle_keyboard_input` (lines 568-576): accumulate a pan delta from
the arrow keys and pan the camera when it is nonzero. -/
def handle_keyboard_input (k : KeyState) (st : AppState) : AppState :=
  if panDx k ≠ 0 ∨ panDy k ≠ 0 then
    { st with cam := st.cam.pan (panDx k) (panDy k) }
  else st

/-- The raw steering direction accumulated from WASD (lines 591-595),
before normalisation. -/
def forceDir (k : KeyState) : ℤ × ℤ :=
  ((if k.keyA then -1 else 0) + (if k.keyD then 1 else 0),
   (if k.keyW then -1 else 0) + (if k.keyS then 1 else 0))

/-- Operations of one tick of `update_simulation`, in execution order. -/
inductive TickOp
  | physicsStep
  | sampleInput
  | applyPlayerForce (target : Nat)
  | entitySweep
  | render
  deriving DecidableEq

/-- The WASD steering block of `update_simulation` (lines 589-602): if a
controllable object exists and is alive and the steering direction is
nonzero, the normalised direction scaled by `force_magnitude` is applied at
the body's local origin through the integrator (a force-accumulator write;
registry and space membership are untouched).  The emitted op records which
entity received the force. -/
def player_force_phase (k : KeyState) (st : AppState) :
    AppState × List TickOp :=
  match st.controllable with
  | some pid =>
      match st.entity? pid with
      | some e =>
          if e.alive then
            if forceDir k ≠ (0, 0) then (st, [.applyPlayerForce pid])
            else (st, [])
          else (st, [])
      | none => (st, [])
  | none => (st, [])

/-- The registry removal after `entity.update()` in the sweep (lines
607-608): `if entity.marked_for_removal and entity in self.entities:
self.entities.remove(entity)`. -/
def sweepRemove (acc1 : AppState) (i : Nat) : AppState :=
  if markedIn acc1 i ∧ i ∈ acc1.entities then
    { acc1 with entities := acc1.entities.erase i }
  else acc1

/-- One iteration of the sweep loop in `update_simulation` (lines 605-608):
`entity.update()` (killing a flagged entity), then the registry removal. -/
def sweepStep (acc : AppState) (i : Nat) : AppState :=
  sweepRemove (entityUpdate i acc) i

/-- The entity update and removal sweep of `update_simulation` (lines
604-608): iterate over a copy of the registry; update each entity (killing
it if flagged, `Entity.update`), then drop flagged entities from the
registry. -/
def sweep_entities (st : AppState) : AppState :=
  st.entities.foldl sweepStep st

/-- `update_simulation` (lines 578-641): nothing happens when the loop is
stopped; otherwise the physics space is stepped first, then the held-key
state is sampled (camera pan, then WASD steering force), then the entity
sweep runs, then the frame is re-rendered from the post-sweep registry
(lines 610-628; rendering only writes the external frame buffer).  The
second component is the tick's operation trace in execution order. -/
def update_simulation (events : List ContactEvent) (k : KeyState)
    (st : AppState) : AppState × List TickOp :=
  if ¬ st.running then (st, []) else
  let s1 := space_step events st
  let s2 := handle_keyboard_input k s1
  let s3p := player_force_phase k s2
  let s4 := sweep_entities s3p.1
  (s4, [.physicsStep, .sampleInput] ++ s3p.2 ++ [.entitySweep, .render])

/- Pointer drag (`on_mouse_press` lines 436-453, `on_mouse_release` lines
455-462). -/

/-- Result of `space.point_query_nearest` that passes the source's guards:
a shape with a body, with that body's type. -/
structure ShapeHit where
  sid : Nat
  bodyType : BodyType
  deriving DecidableEq

/-- `on_mouse_press`: convert the press position to world coordinates,
query the space at that point with query radius 0 (`q` is the external
`point_query_nearest`, called at the converted position and radius), and if
a shape with a DYNAMIC body is hit, create a pivot joint with max_force
700000·zoom and error_bias (1 − 0.15)^60 and add it to the space. -/
def on_mouse_press (q : (ℚ × ℚ) → ℚ → Option ShapeHit) (P : ℚ × ℚ)
    (st : AppState) : AppState :=
  if ¬ st.running then st else
  match q (st.cam.screen_to_world P) 0 with
  | some hit =>
      if hit.bodyType = .dynamic then
        { st with
          selectedShape := some hit.sid,
          space := { st.space with
                     constraints := st.space.constraints ++ [st.nextId] },
          mouseJoint := some { jid := st.nextId,
                               maxForce := 700000 * st.cam.zoom,
                               errorBias := ((1 : ℚ) - 15/100) ^ (60 : ℕ) },
          nextId := st.nextId + 1 }
      else st
  | none => st

/-- `on_mouse_release` with the external `Space.remove` failure made
explicit: the joint is removed only after the membership check, so the
removal cannot fail. -/
def on_mouse_release_checked (st : AppState) : Option AppState :=
  if ¬ st.running then some st else
  match st.mouseJoint with
  | none => some st
  | some j =>
      if j.jid ∈ st.space.constraints then do
        let sp ← st.space.removeConstraint j.jid
        some { st with space := sp, mouseJoint := none, selectedShape := none }
      else some st

/-- `on_mouse_release` (lines 455-462): if a drag joint exists and is still
in the space's constraint set, remove it and clear the drag state;
otherwise do nothing. -/
def on_mouse_release (st : AppState) : AppState :=
  if ¬ st.running then st else
  match st.mouseJoint with
  | none => st
  | some j =>
      if j.jid ∈ st.space.constraints then
        { st with
          space := { st.space with
                     constraints := st.space.constraints.erase j.jid },
          mouseJoint := none, selectedShape := none }
      else st

/- Numeric model of the bouncer reaction, over ℝ (the source computes with
floats and `math.sqrt`-based vector normalisation). -/

/-- The fixed time step `TIME_STEP = 1.0 / FPS` with `FPS = 60`
(lines 16-17). -/
noncomputable def TIME_STEP : ℝ := 1 / 60

/-- `BouncerEntity.__init__`: `self.bounce_force = 500000` (line 227). -/
noncomputable def bounce_force : ℝ := 500000

/-- Euclidean length of a 2D vector (pymunk `Vec2d.length`). -/
noncomputable def vlen (v : ℝ × ℝ) : ℝ := Real.sqrt (v.1 ^ 2 + v.2 ^ 2)

/-- pymunk `Vec2d.normalized`: the vector divided by its length when the
length is nonzero, the zero vector otherwise. -/
noncomputable def normalized (v : ℝ × ℝ) : ℝ × ℝ :=
  if vlen v ≠ 0 then (v.1 / vlen v, v.2 / vlen v) else (0, 0)

/-- A shape as seen by the bouncer handler: collision type, the
`parent_sprite` back-reference's variant (when the shape has one), body
type and body position. -/
structure PhysShape where
  ctype : Nat
  parentKind : Option EntityKind
  bodyType : BodyType
  pos : ℝ × ℝ

/-- `BouncerEntity.on_collision` (lines 229-235): if the other body is
DYNAMIC, apply the impulse
`(other.position − self.position).normalized() * bounce_force * TIME_STEP`
at the other body's local point (0, 0).  The result is the
(impulse, local application point) pair passed to
`apply_impulse_at_local_point`, or `none` when no impulse is applied. -/
noncomputable def bouncer_on_collision (selfPos : ℝ × ℝ) (other : PhysShape) :
    Option ((ℝ × ℝ) × (ℝ × ℝ)) :=
  if other.bodyType = .dynamic then
    let direction := normalized (other.pos.1 - selfPos.1, other.pos.2 - selfPos.2)
    some ((direction.1 * bounce_force * TIME_STEP,
           direction.2 * bounce_force * TIME_STEP), (0, 0))
  else none

/-- The swap at lines 426-428: reorder `arbiter.shapes` so that the first
component is the BOUNCER-typed shape. -/
def bouncerSideOf (sa sb : PhysShape) : PhysShape × PhysShape :=
  if sa.ctype ≠ 3 then (sb, sa) else (sa, sb)

/-- `bouncer_interaction_begin` (lines 424-433), numerically: normalise the
shape order, then fire `BouncerEntity.on_collision` if the bouncer-side
shape's parent is a `BouncerEntity`; return True in every case. -/
noncomputable def bouncer_begin (sa sb : PhysShape) :
    Option ((ℝ × ℝ) × (ℝ × ℝ)) × Bool :=
  let bs := (bouncerSideOf sa sb).1
  let os := (bouncerSideOf sa sb).2
  if bs.parentKind = some .bouncer then (bouncer_on_collision bs.pos os, true)
  else (none, true)

/-- The spec's impulse direction: the unit vector from point `a` toward
point `b`. -/
noncomputable def unitFromTo (a b : ℝ × ℝ) : ℝ × ℝ :=
  ((b.1 - a.1) / vlen (b.1 - a.1, b.2 - a.2),
   (b.2 - a.2) / vlen (b.1 - a.1, b.2 - a.2))

/- Concrete states used to exercise the theorems on explicit inputs. -/

/-- A running state with one controllable player entity (identifier 4)
alongside the four boundary shapes. -/
def tickDemoState : AppState :=
  { space := { bodies := [4], shapes := [0, 1, 2, 3, 4], constraints := [],
               gravity := (0, 900) },
    heap := [{ eid := 4, kind := .player, marked_for_removal := false,
               alive := true }],
    entities := [4], controllable := some 4, score := 0,
    cam := Camera.mk0 1000 600, mouseJoint := none, selectedShape := none,
    running := true, nextId := 5 }

/-- Held-key state with only `d` pressed (steer right), no pan keys. -/
def tickDemoKeys : KeyState :=
  { left := false, right := false, up := false, down := false,
    keyW := false, keyA := false, keyS := false, keyD := true }

/-- Held-key state with no key pressed. -/
def noKeys : KeyState :=
  { left := false, right := false, up := false, down := false,
    keyW := false, keyA := false, keyS := false, keyD := false }

/-- A running state with a controllable player (identifier 4) and a coin
(identifier 5): the coin collection scenario. -/
def coinDemoState : AppState :=
  { space := { bodies := [4, 5], shapes := [0, 1, 2, 3, 4, 5],
               constraints := [], gravity := (0, 900) },
    heap := [{ eid := 4, kind := .player, marked_for_removal := false,
               alive := true },
             { eid := 5, kind := .coin, marked_for_removal := false,
               alive := true }],
    entities := [4, 5], controllable := some 4, score := 0,
    cam := Camera.mk0 1000 600, mouseJoint := none, selectedShape := none,
    running := true, nextId := 6 }

/-- The begun player–coin contact of the coin collection scenario, as the
(PLAYER, COIN) pair handler receives it. -/
def coinDemoEvent : ContactEvent :=
  { a := { ctype := 1, parent := some 4 }, b := { ctype := 2, parent := some 5 } }

/-- Bookkeeping invariant maintained by the spawn operations, starting from
`initState`: identifier lists are duplicate-free, every identifier is below
the fresh counter, entity identifiers start at 4 (the four boundary shapes
own 0-3 and stay present), and a set controllable reference is an entity
identifier. -/
structure SpawnInv (s : AppState) : Prop where
  bodiesNodup : s.space.bodies.Nodup
  shapesNodup : s.space.shapes.Nodup
  entsNodup : s.entities.Nodup
  bodiesLt : ∀ b ∈ s.space.bodies, b < s.nextId
  shapesLt : ∀ h ∈ s.space.shapes, h < s.nextId
  entsLt : ∀ i ∈ s.entities, i < s.nextId
  entsGe : ∀ i ∈ s.entities, 4 ≤ i
  fourLe : 4 ≤ s.nextId
  boundariesPresent : ∀ b ∈ boundaryIds, b ∈ s.space.shapes
  ctrlGe : ∀ pid, s.controllable = some pid → 4 ≤ pid
  bodiesSub : ∀ b ∈ s.space.bodies, b ∈ s.entities
  shapesSub : ∀ h ∈ s.space.shapes, h ∈ s.entities ∨ h ∈ boundaryIds

/-- A running state holding a stale drag-joint reference (identifier 11)
that is no longer in the constraint set. -/
def releaseDemoState : AppState :=
  { initState with mouseJoint := some { jid := 11, maxForce := 0,
                                        errorBias := 0 } }

/-- The bouncer-side shape of the concrete bouncer scenario: a static
BOUNCER-typed shape whose parent is a `BouncerEntity`, at (0, 0). -/
noncomputable def demoBouncer : PhysShape :=
  { ctype := 3, parentKind := some .bouncer, bodyType := .static,
    pos := (0, 0) }

/-- The other shape of the concrete bouncer scenario: a dynamic ball at
(30, 40). -/
noncomputable def demoBall : PhysShape :=
  { ctype := 5, parentKind := some .ball, bodyType := .dynamic,
    pos := (30, 40) }

/- Basic facts about pyTrunc. -/

theorem pyTrunc_intCast (n : ℤ) : pyTrunc (n : ℚ) = n := by
  unfold pyTrunc
  split
  · exact Int.floor_intCast n
  · rw [show -((n : ℤ) : ℚ) = ((-n : ℤ) : ℚ) by push_cast; ring,
      Int.floor_intCast]
    omega

theorem pyTrunc_sub_lt (x : ℚ) : |(pyTrunc x : ℚ) - x| < 1 := by
  unfold pyTrunc
  split
  · rw [abs_sub_lt_iff]
    constructor
    · linarith [Int.sub_one_lt_floor x, Int.floor_le x]
    · linarith [Int.sub_one_lt_floor x, Int.floor_le x]
  · rw [abs_sub_lt_iff]
    push_cast
    constructor
    · linarith [Int.sub_one_lt_floor (-x), Int.floor_le (-x)]
    · linarith [Int.sub_one_lt_floor (-x), Int.floor_le (-x)]

/-- Exact inverse: `screen_to_world` undoes the un-truncated transform. -/
theorem screen_to_world_applyExact (c : Camera) (w : ℚ × ℚ) (hz : c.zoom ≠ 0) :
    c.screen_to_world (c.applyExactX w, c.applyExactY w) = w := by
  unfold Camera.screen_to_world Camera.applyExactX Camera.applyExactY
  obtain ⟨x, y⟩ := w
  simp only [Prod.mk.injEq]
  constructor
  · field_simp
  · field_simp

/-- C2 (counterexample): at zoom 0.2 ∈ [min_zoom, max_zoom] and pan (0,0),
the round trip screen_to_world (apply (4.9, 0)) returns (0, 0): the integer
pixel truncation inside `Camera.apply` loses 4.9 world units, far beyond
floating-point tolerance, so screenToWorld is not the exact inverse of
worldToScreen. -/
theorem camera_roundtrip_not_exact :
    min_zoom ≤ lowZoomCam.zoom ∧ lowZoomCam.zoom ≤ max_zoom ∧
    lowZoomCam.roundTrip (49/10, 0) = (0, 0) ∧
    |(lowZoomCam.roundTrip (49/10, 0)).1 - 49/10| = 49/10 := by
  have hx : Camera.applyExactX lowZoomCam (49/10, 0) = 20049/50 := by
    norm_num [Camera.applyExactX, lowZoomCam]
  have hy : Camera.applyExactY lowZoomCam (49/10, 0) = ((240 : ℤ) : ℚ) := by
    norm_num [Camera.applyExactY, lowZoomCam]
  have hfx : pyTrunc (20049/50 : ℚ) = 400 := by
    unfold pyTrunc
    rw [if_pos (by norm_num), Int.floor_eq_iff]
    norm_num
  have hrt : lowZoomCam.roundTrip (49/10, 0) = (0, 0) := by
    unfold Camera.roundTrip Camera.apply
    rw [hx, hy, hfx, pyTrunc_intCast]
    norm_num [Camera.screen_to_world, lowZoomCam]
  refine ⟨by norm_num [min_zoom, lowZoomCam], by norm_num [max_zoom, lowZoomCam],
    hrt, ?_⟩
  rw [hrt]
  norm_num

/-- C2 (amended): for every camera with zoom in [min_zoom, max_zoom] and any
pan offset, `screen_to_world` is the exact inverse of the un-truncated
world-to-screen map, and the full round trip through `Camera.apply` (with its
integer pixel truncation) returns the world point up to an error strictly
below 1/zoom in each coordinate. -/
theorem camera_roundtrip_bound (c : Camera) (w : ℚ × ℚ)
    (h1 : min_zoom ≤ c.zoom) (h2 : c.zoom ≤ max_zoom) :
    c.screen_to_world (c.applyExactX w, c.applyExactY w) = w ∧
    |(c.roundTrip w).1 - w.1| < 1 / c.zoom ∧
    |(c.roundTrip w).2 - w.2| < 1 / c.zoom := by
  have hz : 0 < c.zoom := lt_of_lt_of_le (by norm_num [min_zoom]) h1
  refine ⟨screen_to_world_applyExact c w (ne_of_gt hz), ?_, ?_⟩
  · have hx : (c.roundTrip w).1 - w.1 =
        ((pyTrunc (c.applyExactX w) : ℚ) - c.applyExactX w) / c.zoom := by
      unfold Camera.roundTrip Camera.screen_to_world Camera.apply
        Camera.applyExactX
      field_simp
      ring
    rw [hx, abs_div, abs_of_pos hz, div_lt_div_iff_of_pos_right hz]
    exact pyTrunc_sub_lt _
  · have hy : (c.roundTrip w).2 - w.2 =
        ((pyTrunc (c.applyExactY w) : ℚ) - c.applyExactY w) / c.zoom := by
      unfold Camera.roundTrip Camera.screen_to_world Camera.apply
        Camera.applyExactY
      field_simp
      ring
    rw [hy, abs_div, abs_of_pos hz, div_lt_div_iff_of_pos_right hz]
    exact pyTrunc_sub_lt _

/-- Witness for `camera_roundtrip_bound` at the default camera and world
point (7, 9). -/
theorem camera_roundtrip_bound_witness :
    (Camera.mk0 1000 600).screen_to_world
        ((Camera.mk0 1000 600).applyExactX (7, 9),
         (Camera.mk0 1000 600).applyExactY (7, 9)) = (7, 9) ∧
    |((Camera.mk0 1000 600).roundTrip (7, 9)).1 - (7:ℚ)| <
        1 / (Camera.mk0 1000 600).zoom ∧
    |((Camera.mk0 1000 600).roundTrip (7, 9)).2 - (9:ℚ)| <
        1 / (Camera.mk0 1000 600).zoom :=
  camera_roundtrip_bound (Camera.mk0 1000 600) (7, 9)
    (by norm_num [min_zoom, Camera.mk0]) (by norm_num [max_zoom, Camera.mk0])

/-- C9 (counterexample): at zoom 1 and pan (0,0) the spec formula sends world
x = 1/2 to screen x = 1/2, but `Camera.apply` returns the truncated integer 0,
so the transform does not compute `screen = (world − pan)·zoom +
viewCenter·(1 − zoom)` exactly for every input. -/
theorem camera_apply_not_spec_formula :
    (((unitZoomCam.apply ((1:ℚ)/2, 0)).1 : ℚ) ≠
      specScreenX unitZoomCam ((1:ℚ)/2, 0)) ∧
    specScreenX unitZoomCam ((1:ℚ)/2, 0) = 1/2 ∧
    (unitZoomCam.apply ((1:ℚ)/2, 0)).1 = 0 := by
  have hx : Camera.applyExactX unitZoomCam ((1:ℚ)/2, 0) = 1/2 := by
    norm_num [Camera.applyExactX, unitZoomCam]
  have hfx : pyTrunc (1/2 : ℚ) = 0 := by
    unfold pyTrunc
    rw [if_pos (by norm_num), Int.floor_eq_iff]
    norm_num
  have happ : (unitZoomCam.apply ((1:ℚ)/2, 0)).1 = 0 := by
    unfold Camera.apply
    rw [hx, hfx]
  refine ⟨?_, by norm_num [specScreenX, unitZoomCam], happ⟩
  rw [happ]
  norm_num [specScreenX, unitZoomCam]

/-- C9 (amended): for every camera state and world position, `Camera.apply`
computes exactly the integer truncation (toward zero) of the spec formula
screen = (world − pan)·zoom + viewCenter·(1 − zoom) in each coordinate; in
particular, with zoom 2.0, pan (0,0) and a 1000×600 view, worldToScreen
((50,50)) = (−400, −200), where the formula value is integral so the
truncation is exact. -/
theorem camera_apply_spec_formula :
    (∀ (c : Camera) (w : ℚ × ℚ),
      c.apply w = (pyTrunc (specScreenX c w), pyTrunc (specScreenY c w))) ∧
    Camera.apply
        { width := 1000, height := 600, offset_x := 0, offset_y := 0,
          zoom := 2 } (50, 50) = (-400, -200) := by
  constructor
  · intro c w
    unfold Camera.apply Camera.applyExactX Camera.applyExactY
      specScreenX specScreenY
    have h1 : w.1 * c.zoom - c.offset_x * c.zoom + c.width / 2 * (1 - c.zoom)
        = (w.1 - c.offset_x) * c.zoom + c.width / 2 * (1 - c.zoom) := by ring
    have h2 : w.2 * c.zoom - c.offset_y * c.zoom + c.height / 2 * (1 - c.zoom)
        = (w.2 - c.offset_y) * c.zoom + c.height / 2 * (1 - c.zoom) := by ring
    rw [h1, h2]
  · have hx : Camera.applyExactX
        { width := 1000, height := 600, offset_x := 0, offset_y := 0,
          zoom := 2 } (50, 50) = ((-400 : ℤ) : ℚ) := by
      norm_num [Camera.applyExactX]
    have hy : Camera.applyExactY
        { width := 1000, height := 600, offset_x := 0, offset_y := 0,
          zoom := 2 } (50, 50) = ((-200 : ℤ) : ℚ) := by
      norm_num [Camera.applyExactY]
    unfold Camera.apply
    rw [hx, hy, pyTrunc_intCast, pyTrunc_intCast]

/- Supporting lemmas: heap lookups. -/

theorem entity?_eid {s : AppState} {i : Nat} {e : Entity}
    (h : s.entity? i = some e) : e.eid = i := by
  have := List.find?_some h
  simpa using this

theorem entity?_heapSet (s : AppState) (j i : Nat) (f : Entity → Entity)
    (hf : ∀ e, (f e).eid = e.eid) :
    (s.heapSet j f).entity? i =
      (s.entity? i).map (fun e => if e.eid = j then f e else e) := by
  unfold AppState.heapSet AppState.entity?
  simp only [List.find?_map]
  have hp : ((fun e : Entity => e.eid == i) ∘
      (fun e => if e.eid = j then f e else e)) = (fun e : Entity => e.eid == i) := by
    funext e
    by_cases h : e.eid = j <;> simp [h, hf]
  rw [hp]

theorem markedIn_heapSet_alive (s : AppState) (j i : Nat) (b : Bool) :
    markedIn (s.heapSet j (fun e => { e with alive := b })) i = markedIn s i := by
  unfold markedIn
  rw [entity?_heapSet s j i (fun e => { e with alive := b }) (fun e => rfl)]
  cases h : s.entity? i with
  | none => rfl
  | some e =>
      simp only [Option.map_some, Option.any_some]
      by_cases he : e.eid = j <;> simp [he]

theorem kindIn_heapSet_alive (s : AppState) (j i : Nat) (b : Bool) :
    kindIn (s.heapSet j (fun e => { e with alive := b })) i = kindIn s i := by
  unfold kindIn
  rw [entity?_heapSet s j i (fun e => { e with alive := b }) (fun e => rfl)]
  cases h : s.entity? i with
  | none => rfl
  | some e =>
      by_cases he : e.eid = j <;> simp [he]

theorem markedIn_heapSet_marked (s : AppState) (j i : Nat) :
    markedIn (s.heapSet j (fun e => { e with marked_for_removal := true })) i =
      if i = j then ((s.entity? i).isSome || markedIn s i) else markedIn s i := by
  unfold markedIn
  rw [entity?_heapSet s j i (fun e => { e with marked_for_removal := true })
    (fun e => rfl)]
  cases h : s.entity? i with
  | none => simp
  | some e =>
      have he := entity?_eid h
      simp only [Option.map_some, Option.any_some, Option.isSome_some]
      by_cases hij : i = j
      · subst hij
        simp [he]
      · have : ¬ e.eid = j := by rw [he]; exact hij
        simp [this, hij]

theorem kindIn_heapSet_marked (s : AppState) (j i : Nat) :
    kindIn (s.heapSet j (fun e => { e with marked_for_removal := true })) i =
      kindIn s i := by
  unfold kindIn
  rw [entity?_heapSet s j i (fun e => { e with marked_for_removal := true })
    (fun e => rfl)]
  cases h : s.entity? i with
  | none => rfl
  | some e =>
      by_cases he : e.eid = j <;> simp [he]

/- Supporting lemmas: kill_entity. -/

theorem kill_entity_checked_eq (i : Nat) (s : AppState) :
    kill_entity_checked i s = some (kill_entity i s) := by
  unfold kill_entity_checked kill_entity Space.removeBody Space.removeShape
  by_cases hb : i ∈ s.space.bodies <;>
    by_cases hs : i ∈ s.space.shapes <;>
      simp [hb, hs, Bind.bind, Option.bind]

theorem kill_entity_frame (i : Nat) (s : AppState) :
    (kill_entity i s).entities = s.entities ∧
    (kill_entity i s).score = s.score ∧
    (kill_entity i s).controllable = s.controllable ∧
    (kill_entity i s).cam = s.cam ∧
    (kill_entity i s).running = s.running ∧
    (kill_entity i s).nextId = s.nextId ∧
    (kill_entity i s).mouseJoint = s.mouseJoint ∧
    (kill_entity i s).selectedShape = s.selectedShape ∧
    (kill_entity i s).space.constraints = s.space.constraints ∧
    (kill_entity i s).space.gravity = s.space.gravity := by
  unfold kill_entity AppState.heapSet
  by_cases hb : i ∈ s.space.bodies <;>
    by_cases hs : i ∈ s.space.shapes <;>
      simp [hb, hs]

theorem markedIn_kill (j i : Nat) (s : AppState) :
    markedIn (kill_entity j s) i = markedIn s i := by
  unfold kill_entity
  exact markedIn_heapSet_alive _ j i false

theorem kindIn_kill (j i : Nat) (s : AppState) :
    kindIn (kill_entity j s) i = kindIn s i := by
  unfold kill_entity
  exact kindIn_heapSet_alive _ j i false

theorem kill_entity_space (i : Nat) (s : AppState)
    (hb : s.space.bodies.Nodup) (hs : s.space.shapes.Nodup) :
    (kill_entity i s).space.bodies.Nodup ∧
    (kill_entity i s).space.shapes.Nodup ∧
    i ∉ (kill_entity i s).space.bodies ∧
    i ∉ (kill_entity i s).space.shapes ∧
    (∀ x, x ∈ (kill_entity i s).space.bodies → x ∈ s.space.bodies) ∧
    (∀ x, x ∈ (kill_entity i s).space.shapes → x ∈ s.space.shapes) ∧
    (∀ x, x ≠ i → x ∈ s.space.bodies → x ∈ (kill_entity i s).space.bodies) ∧
    (∀ x, x ≠ i → x ∈ s.space.shapes → x ∈ (kill_entity i s).space.shapes) := by
  unfold kill_entity AppState.heapSet
  by_cases hbm : i ∈ s.space.bodies <;> by_cases hsm : i ∈ s.space.shapes <;>
    simp only [hbm, hsm, if_pos, if_neg, not_false_iff] <;>
    refine ⟨?_, ?_, ?_, ?_, ?_, ?_, ?_, ?_⟩ <;>
    simp_all [List.Nodup.erase, hb.mem_erase_iff, hs.mem_erase_iff,
      List.mem_of_mem_erase, List.mem_erase_of_ne]

/- Supporting lemmas: collision dispatch. -/

theorem on_collected_fields (cid : Nat) (s : AppState) :
    (on_collected cid s).space = s.space ∧
    (on_collected cid s).entities = s.entities ∧
    (on_collected cid s).controllable = s.controllable ∧
    (on_collected cid s).running = s.running ∧
    (on_collected cid s).cam = s.cam ∧
    (on_collected cid s).score = s.score + coinValue :=
  ⟨rfl, rfl, rfl, rfl, rfl, rfl⟩

theorem dispatchContact_cases (ev : ContactEvent) (s : AppState) :
    dispatchContact ev s = s ∨
    ∃ cid e, ev.b.parent = some cid ∧ s.entity? cid = some e ∧
      e.kind = .coin ∧ dispatchContact ev s = on_collected cid s := by
  by_cases hab : ev.a.ctype = 1 ∧ ev.b.ctype = 2
  · rcases hp : ev.b.parent with _ | cid
    · left
      simp [dispatchContact, player_collect_coin_begin, hab, hp]
    · rcases he : s.entity? cid with _ | e
      · left
        simp [dispatchContact, player_collect_coin_begin, hab, hp, he]
      · by_cases hk : e.kind = EntityKind.coin
        · refine Or.inr ⟨cid, e, rfl, he, hk, ?_⟩
          simp [dispatchContact, player_collect_coin_begin, hab, hp, he, hk]
        · left
          simp [dispatchContact, player_collect_coin_begin, hab, hp, he, hk]
  · unfold dispatchContact
    rw [if_neg hab]
    by_cases hw : ev.a.ctype = 3 ∨ ev.b.ctype = 3
    · rw [if_pos hw]
      exact Or.inl rfl
    · rw [if_neg hw]
      exact Or.inl rfl

theorem dispatchContact_fields (ev : ContactEvent) (s : AppState) :
    (dispatchContact ev s).space = s.space ∧
    (dispatchContact ev s).entities = s.entities ∧
    (dispatchContact ev s).controllable = s.controllable ∧
    (dispatchContact ev s).running = s.running ∧
    (dispatchContact ev s).cam = s.cam := by
  rcases dispatchContact_cases ev s with h | ⟨cid, e, _, _, _, h⟩ <;> rw [h]
  · exact ⟨rfl, rfl, rfl, rfl, rfl⟩
  · exact ⟨rfl, rfl, rfl, rfl, rfl⟩

theorem kindIn_dispatchContact (ev : ContactEvent) (s : AppState) (i : Nat) :
    kindIn (dispatchContact ev s) i = kindIn s i := by
  rcases dispatchContact_cases ev s with h | ⟨cid, e, _, _, _, h⟩ <;> rw [h]
  exact kindIn_heapSet_marked _ cid i

theorem markedIn_dispatchContact (ev : ContactEvent) (s : AppState) (i : Nat)
    (h : markedIn (dispatchContact ev s) i = true) :
    markedIn s i = true ∨ kindIn s i = some .coin := by
  rcases dispatchContact_cases ev s with hc | ⟨cid, e, _, he, hk, hc⟩
  · rw [hc] at h
    exact Or.inl h
  · rw [hc] at h
    unfold on_collected at h
    rw [markedIn_heapSet_marked] at h
    by_cases hij : i = cid
    · subst hij
      exact Or.inr (by simp [kindIn, he, hk])
    · rw [if_neg hij] at h
      exact Or.inl h

theorem space_step_fields (events : List ContactEvent) (s : AppState) :
    (space_step events s).space = s.space ∧
    (space_step events s).entities = s.entities ∧
    (space_step events s).controllable = s.controllable ∧
    (space_step events s).running = s.running ∧
    (space_step events s).cam = s.cam := by
  induction events generalizing s with
  | nil => exact ⟨rfl, rfl, rfl, rfl, rfl⟩
  | cons ev t ih =>
      have h1 := dispatchContact_fields ev s
      have h2 := ih (dispatchContact ev s)
      unfold space_step at h2 ⊢
      rw [List.foldl_cons]
      exact ⟨h2.1.trans h1.1, h2.2.1.trans h1.2.1, h2.2.2.1.trans h1.2.2.1,
        h2.2.2.2.1.trans h1.2.2.2.1, h2.2.2.2.2.trans h1.2.2.2.2⟩

theorem kindIn_space_step (events : List ContactEvent) (s : AppState) (i : Nat) :
    kindIn (space_step events s) i = kindIn s i := by
  induction events generalizing s with
  | nil => rfl
  | cons ev t ih =>
      unfold space_step at ih ⊢
      rw [List.foldl_cons, ih, kindIn_dispatchContact]

theorem markedIn_space_step (events : List ContactEvent) (s : AppState) (i : Nat)
    (h : markedIn (space_step events s) i = true) :
    markedIn s i = true ∨ kindIn s i = some .coin := by
  induction events generalizing s with
  | nil => exact Or.inl h
  | cons ev t ih =>
      unfold space_step at h
      rw [List.foldl_cons] at h
      rcases ih (dispatchContact ev s) h with h1 | h1
      · exact markedIn_dispatchContact ev s i h1
      · rw [kindIn_dispatchContact] at h1
        exact Or.inr h1

/- Supporting lemmas: the sweep. -/

theorem entityUpdate_eq (i : Nat) (acc : AppState) :
    entityUpdate i acc = if markedIn acc i then kill_entity i acc else acc := by
  unfold entityUpdate markedIn
  cases h : acc.entity? i with
  | none => simp
  | some e => simp [Option.any_some]

theorem markedIn_sweepRemove (acc1 : AppState) (j i : Nat) :
    markedIn (sweepRemove acc1 j) i = markedIn acc1 i := by
  unfold sweepRemove
  split <;> rfl

theorem markedIn_sweepStep (acc : AppState) (j i : Nat) :
    markedIn (sweepStep acc j) i = markedIn acc i := by
  unfold sweepStep
  rw [markedIn_sweepRemove, entityUpdate_eq]
  split
  · exact markedIn_kill j i acc
  · rfl

theorem sweepRemove_fields (acc1 : AppState) (j : Nat) :
    (sweepRemove acc1 j).score = acc1.score ∧
    (sweepRemove acc1 j).controllable = acc1.controllable ∧
    (sweepRemove acc1 j).cam = acc1.cam ∧
    (sweepRemove acc1 j).running = acc1.running ∧
    (sweepRemove acc1 j).space = acc1.space ∧
    (sweepRemove acc1 j).heap = acc1.heap := by
  unfold sweepRemove
  split <;> exact ⟨rfl, rfl, rfl, rfl, rfl, rfl⟩

theorem sweepStep_fields (acc : AppState) (j : Nat) :
    (sweepStep acc j).score = acc.score ∧
    (sweepStep acc j).controllable = acc.controllable ∧
    (sweepStep acc j).cam = acc.cam ∧
    (sweepStep acc j).running = acc.running ∧
    (sweepStep acc j).space.constraints = acc.space.constraints ∧
    (sweepStep acc j).space.gravity = acc.space.gravity := by
  unfold sweepStep
  have hr := sweepRemove_fields (entityUpdate j acc) j
  have hu : (entityUpdate j acc).score = acc.score ∧
      (entityUpdate j acc).controllable = acc.controllable ∧
      (entityUpdate j acc).cam = acc.cam ∧
      (entityUpdate j acc).running = acc.running ∧
      (entityUpdate j acc).space.constraints = acc.space.constraints ∧
      (entityUpdate j acc).space.gravity = acc.space.gravity := by
    rw [entityUpdate_eq]
    split
    · have hk := kill_entity_frame j acc
      exact ⟨hk.2.1, hk.2.2.1, hk.2.2.2.1, hk.2.2.2.2.1,
        hk.2.2.2.2.2.2.2.2.1, hk.2.2.2.2.2.2.2.2.2⟩
    · exact ⟨rfl, rfl, rfl, rfl, rfl, rfl⟩
  refine ⟨hr.1.trans hu.1, hr.2.1.trans hu.2.1, hr.2.2.1.trans hu.2.2.1,
    hr.2.2.2.1.trans hu.2.2.2.1, ?_, ?_⟩
  · rw [hr.2.2.2.2.1]
    exact hu.2.2.2.2.1
  · rw [hr.2.2.2.2.1]
    exact hu.2.2.2.2.2

theorem foldl_sweepStep_markedIn :
    ∀ (l : List Nat) (acc : AppState) (i : Nat),
      markedIn (l.foldl sweepStep acc) i = markedIn acc i := by
  intro l
  induction l with
  | nil => intro acc i; rfl
  | cons j t ih =>
      intro acc i
      rw [List.foldl_cons, ih, markedIn_sweepStep]

theorem foldl_sweepStep_fields :
    ∀ (l : List Nat) (acc : AppState),
      (l.foldl sweepStep acc).score = acc.score ∧
      (l.foldl sweepStep acc).controllable = acc.controllable ∧
      (l.foldl sweepStep acc).cam = acc.cam ∧
      (l.foldl sweepStep acc).running = acc.running ∧
      (l.foldl sweepStep acc).space.constraints = acc.space.constraints ∧
      (l.foldl sweepStep acc).space.gravity = acc.space.gravity := by
  intro l
  induction l with
  | nil => intro acc; exact ⟨rfl, rfl, rfl, rfl, rfl, rfl⟩
  | cons j t ih =>
      intro acc
      rw [List.foldl_cons]
      have h1 := sweepStep_fields acc j
      have h2 := ih (sweepStep acc j)
      exact ⟨h2.1.trans h1.1, h2.2.1.trans h1.2.1, h2.2.2.1.trans h1.2.2.1,
        h2.2.2.2.1.trans h1.2.2.2.1, h2.2.2.2.2.1.trans h1.2.2.2.2.1,
        h2.2.2.2.2.2.trans h1.2.2.2.2.2⟩

theorem foldl_sweepStep_entities :
    ∀ (l p : List Nat) (acc : AppState),
      (p ++ l).Nodup → acc.entities = p ++ l →
      (l.foldl sweepStep acc).entities =
        p ++ l.filter (fun i => !(markedIn acc i)) := by
  intro l
  induction l with
  | nil =>
      intro p acc _ he
      simpa using he
  | cons j t ih =>
      intro p acc hnd he
      have hjp : j ∉ p := by
        rw [List.nodup_append] at hnd
        intro hjpm
        exact hnd.2.2 hjpm (List.mem_cons_self j t)
      rw [List.foldl_cons]
      by_cases hm : markedIn acc j
      · have hstep : (sweepStep acc j).entities = p ++ t := by
          unfold sweepStep sweepRemove
          rw [entityUpdate_eq, if_pos hm]
          have hent : (kill_entity j acc).entities = acc.entities :=
            (kill_entity_frame j acc).1
          have hmk : markedIn (kill_entity j acc) j = true := by
            rw [markedIn_kill]; exact hm
          have hjmem : j ∈ (kill_entity j acc).entities := by
            rw [hent, he]
            exact List.mem_append_right _ (List.mem_cons_self j t)
          rw [if_pos ⟨hmk, hjmem⟩]
          show (kill_entity j acc).entities.erase j = p ++ t
          rw [hent, he, List.erase_append_right _ hjp, List.erase_cons_head]
        have hnd' : (p ++ t).Nodup := by
          rw [List.nodup_append] at hnd ⊢
          exact ⟨hnd.1, hnd.2.1.of_cons,
            fun a ha hat => hnd.2.2 ha (List.mem_cons_of_mem j hat)⟩
        have hmeq : ∀ x, markedIn (sweepStep acc j) x = markedIn acc x :=
          fun x => markedIn_sweepStep acc j x
        have := ih p (sweepStep acc j) hnd' hstep
        rw [this, List.filter_cons]
        simp only [hm, Bool.not_true, cond_false, if_false]
        congr 1
        exact List.filter_congr (fun a _ => by rw [hmeq])
      · have hstep : sweepStep acc j = acc := by
          unfold sweepStep sweepRemove
          rw [entityUpdate_eq, if_neg hm, if_neg (fun hcon => hm hcon.1)]
        rw [hstep]
        have hnd' : ((p ++ [j]) ++ t).Nodup := by
          rw [List.append_assoc]
          simpa using hnd
        have he' : acc.entities = (p ++ [j]) ++ t := by
          rw [List.append_assoc]
          simpa using he
        have := ih (p ++ [j]) acc hnd' he'
        rw [this, List.filter_cons]
        simp [hm, List.append_assoc]

theorem sweepStep_space (acc : AppState) (j : Nat)
    (hb : acc.space.bodies.Nodup) (hs : acc.space.shapes.Nodup) :
    (sweepStep acc j).space.bodies.Nodup ∧
    (sweepStep acc j).space.shapes.Nodup ∧
    (∀ x, x ∈ (sweepStep acc j).space.bodies → x ∈ acc.space.bodies) ∧
    (∀ x, x ∈ (sweepStep acc j).space.shapes → x ∈ acc.space.shapes) ∧
    (markedIn acc j = true →
      j ∉ (sweepStep acc j).space.bodies ∧
      j ∉ (sweepStep acc j).space.shapes) := by
  have hsp : (sweepStep acc j).space = (entityUpdate j acc).space := by
    unfold sweepStep
    exact (sweepRemove_fields (entityUpdate j acc) j).2.2.2.2.1
  rw [hsp, entityUpdate_eq]
  by_cases hm : markedIn acc j
  · rw [if_pos hm]
    have hk := kill_entity_space j acc hb hs
    exact ⟨hk.1, hk.2.1, hk.2.2.2.2.1, hk.2.2.2.2.2.1,
      fun _ => ⟨hk.2.2.1, hk.2.2.2.1⟩⟩
  · rw [if_neg hm]
    exact ⟨hb, hs, fun x hx => hx, fun x hx => hx, fun hc => absurd hc hm⟩

theorem foldl_sweepStep_space :
    ∀ (l : List Nat) (acc : AppState),
      acc.space.bodies.Nodup → acc.space.shapes.Nodup →
      (l.foldl sweepStep acc).space.bodies.Nodup ∧
      (l.foldl sweepStep acc).space.shapes.Nodup ∧
      (∀ x, x ∈ (l.foldl sweepStep acc).space.bodies → x ∈ acc.space.bodies) ∧
      (∀ x, x ∈ (l.foldl sweepStep acc).space.shapes → x ∈ acc.space.shapes) ∧
      (∀ i ∈ l, markedIn acc i = true →
        i ∉ (l.foldl sweepStep acc).space.bodies ∧
        i ∉ (l.foldl sweepStep acc).space.shapes) := by
  intro l
  induction l with
  | nil =>
      intro acc hb hs
      exact ⟨hb, hs, fun x hx => hx, fun x hx => hx, fun i hi => absurd hi (by simp)⟩
  | cons j t ih =>
      intro acc hb hs
      rw [List.foldl_cons]
      have h1 := sweepStep_space acc j hb hs
      have h2 := ih (sweepStep acc j) h1.1 h1.2.1
      refine ⟨h2.1, h2.2.1, fun x hx => h1.2.2.1 x (h2.2.2.1 x hx),
        fun x hx => h1.2.2.2.1 x (h2.2.2.2.1 x hx), ?_⟩
      intro i hi hmi
      rcases List.mem_cons.mp hi with rfl | hit
      · have hj := h1.2.2.2.2 hmi
        constructor
        · intro hmem
          exact hj.1 (h2.2.2.1 i hmem)
        · intro hmem
          exact hj.2 (h2.2.2.2.1 i hmem)
      · have hmi' : markedIn (sweepStep acc j) i = true := by
          rw [markedIn_sweepStep]; exact hmi
        exact h2.2.2.2.2 i hit hmi'

theorem sweep_entities_spec (st : AppState) (hnd : st.entities.Nodup) :
    (sweep_entities st).entities =
      st.entities.filter (fun i => !(markedIn st i)) := by
  unfold sweep_entities
  have := foldl_sweepStep_entities st.entities [] st (by simpa using hnd) rfl
  simpa using this

/- Supporting lemmas: keyboard input and the force phase. -/

theorem handle_keyboard_input_fields (k : KeyState) (st : AppState) :
    (handle_keyboard_input k st).space = st.space ∧
    (handle_keyboard_input k st).heap = st.heap ∧
    (handle_keyboard_input k st).entities = st.entities ∧
    (handle_keyboard_input k st).controllable = st.controllable ∧
    (handle_keyboard_input k st).score = st.score ∧
    (handle_keyboard_input k st).running = st.running := by
  unfold handle_keyboard_input
  split <;> exact ⟨rfl, rfl, rfl, rfl, rfl, rfl⟩

theorem markedIn_eq_of_heap {s1 s2 : AppState} (h : s1.heap = s2.heap) (i : Nat) :
    markedIn s1 i = markedIn s2 i := by
  unfold markedIn AppState.entity?
  rw [h]

theorem kindIn_eq_of_heap {s1 s2 : AppState} (h : s1.heap = s2.heap) (i : Nat) :
    kindIn s1 i = kindIn s2 i := by
  unfold kindIn AppState.entity?
  rw [h]

theorem player_force_phase_state (k : KeyState) (st : AppState) :
    (player_force_phase k st).1 = st := by
  unfold player_force_phase
  rcases hc : st.controllable with _ | pid
  · rfl
  · rcases he : st.entity? pid with _ | e
    · simp [he]
    · by_cases ha : e.alive = true <;> by_cases hf : forceDir k = (0, 0) <;>
        simp [he, ha, hf] <;> try (split <;> rfl)

theorem player_force_phase_ops (k : KeyState) (st : AppState) :
    ∀ op ∈ (player_force_phase k st).2, ∃ pid,
      op = TickOp.applyPlayerForce pid ∧ st.controllable = some pid ∧
      ∃ e, st.entity? pid = some e ∧ e.alive = true := by
  unfold player_force_phase
  rcases hc : st.controllable with _ | pid
  · simp
  · rcases he : st.entity? pid with _ | e
    · simp [he]
    · by_cases ha : e.alive = true
      · by_cases hf : forceDir k = (0, 0)
        · simp [he, ha, hf]
        · simp only [he, ha, hf, ne_eq, not_false_iff, if_true, if_pos]
          intro op hop
          rw [List.mem_singleton] at hop
          exact ⟨pid, hop, rfl, e, he, ha⟩
      · simp [he, ha]

theorem update_simulation_eq (events : List ContactEvent) (k : KeyState)
    (st : AppState) (h : st.running = true) :
    update_simulation events k st =
      (sweep_entities
         (player_force_phase k (handle_keyboard_input k (space_step events st))).1,
       [TickOp.physicsStep, TickOp.sampleInput] ++
         (player_force_phase k (handle_keyboard_input k (space_step events st))).2 ++
         [TickOp.entitySweep, TickOp.render]) := by
  unfold update_simulation
  rw [h]
  rfl

/-- C1 (counterexample): on a running state with an alive controllable
entity and the `d` steering key held, the tick's operation trace is
[physicsStep, sampleInput, applyPlayerForce, entitySweep, render]: the
physics step is executed first (index 0), before the held-key sampling
(index 1) and the force application (index 2), so within one tick the
input sampling and force application do not precede the physics step. -/
theorem tick_step_before_input :
    (update_simulation [] tickDemoKeys tickDemoState).2 =
      [TickOp.physicsStep, TickOp.sampleInput, TickOp.applyPlayerForce 4,
       TickOp.entitySweep, TickOp.render] ∧
    List.indexOf TickOp.physicsStep
        (update_simulation [] tickDemoKeys tickDemoState).2 <
      List.indexOf TickOp.sampleInput
        (update_simulation [] tickDemoKeys tickDemoState).2 ∧
    List.indexOf TickOp.physicsStep
        (update_simulation [] tickDemoKeys tickDemoState).2 <
      List.indexOf (TickOp.applyPlayerForce 4)
        (update_simulation [] tickDemoKeys tickDemoState).2 := by
  have h2 : handle_keyboard_input tickDemoKeys tickDemoState = tickDemoState := by
    unfold handle_keyboard_input
    rw [if_neg]
    push_neg
    constructor <;> norm_num [panDx, panDy, tickDemoKeys, pan_speed]
  have h3 : player_force_phase tickDemoKeys tickDemoState =
      (tickDemoState, [TickOp.applyPlayerForce 4]) := by
    unfold player_force_phase
    simp [tickDemoState, AppState.entity?, List.find?, forceDir, tickDemoKeys]
  have htr : (update_simulation [] tickDemoKeys tickDemoState).2 =
      [TickOp.physicsStep, TickOp.sampleInput, TickOp.applyPlayerForce 4,
       TickOp.entitySweep, TickOp.render] := by
    rw [update_simulation_eq [] tickDemoKeys tickDemoState rfl]
    show ([TickOp.physicsStep, TickOp.sampleInput] ++
        (player_force_phase tickDemoKeys
          (handle_keyboard_input tickDemoKeys
            (space_step [] tickDemoState))).2 ++
        [TickOp.entitySweep, TickOp.render]) = _
    rw [show space_step [] tickDemoState = tickDemoState from rfl, h2, h3]
    rfl
  refine ⟨htr, ?_, ?_⟩ <;> rw [htr] <;> decide

/-- C1 (amended): on every tick of a running simulation, the operations
occur in this order: (c) the physics Space is advanced by one fixed step
(with collision callbacks firing inside it); then (a) the held-key state is
sampled for camera pan and player steering; then (b) if a controllable
entity exists and is alive and the steering direction is nonzero, the force
is applied to it; then (d) entities are updated and flagged entities
removed; then (e) the frame is re-rendered.  The physics step therefore
precedes, within the tick, the input sampling and force application, whose
effects are consumed by the next tick's step. -/
theorem tick_operation_order (events : List ContactEvent) (k : KeyState)
    (st : AppState) (h : st.running = true) :
    ∃ forceOps,
      (update_simulation events k st).2 =
        [TickOp.physicsStep, TickOp.sampleInput] ++ forceOps ++
          [TickOp.entitySweep, TickOp.render] ∧
      ∀ op ∈ forceOps, ∃ pid, op = TickOp.applyPlayerForce pid ∧
        st.controllable = some pid := by
  refine ⟨(player_force_phase k
      (handle_keyboard_input k (space_step events st))).2, ?_, ?_⟩
  · rw [update_simulation_eq events k st h]
  · intro op hop
    obtain ⟨pid, hop', hc, _⟩ := player_force_phase_ops k _ op hop
    refine ⟨pid, hop', ?_⟩
    rw [← (space_step_fields events st).2.2.1,
      ← (handle_keyboard_input_fields k (space_step events st)).2.2.2.1]
    exact hc

/-- Witness for `tick_operation_order` on the concrete one-player state. -/
theorem tick_operation_order_witness :
    ∃ forceOps,
      (update_simulation [] noKeys tickDemoState).2 =
        [TickOp.physicsStep, TickOp.sampleInput] ++ forceOps ++
          [TickOp.entitySweep, TickOp.render] ∧
      ∀ op ∈ forceOps, ∃ pid, op = TickOp.applyPlayerForce pid ∧
        tickDemoState.controllable = some pid :=
  tick_operation_order [] noKeys tickDemoState rfl

theorem markedIn_on_collected_self {st : AppState} {c : Nat} {e : Entity}
    (hcoin : st.entity? c = some e) :
    markedIn (on_collected c st) c = true := by
  unfold on_collected
  rw [markedIn_heapSet_marked, if_pos rfl]
  have : ({ st with score := st.score + coinValue } : AppState).entity? c =
      st.entity? c := rfl
  rw [this, hcoin]
  rfl

theorem markedIn_on_collected_other {st : AppState} {c i : Nat} (h : i ≠ c) :
    markedIn (on_collected c st) i = markedIn st i := by
  unfold on_collected
  rw [markedIn_heapSet_marked, if_neg h]
  rfl

/-- C3: when a PLAYER shape and a COIN shape begin contact on a tick of a
running simulation (no entity flagged beforehand), the coin reaction fires:
the pair handler returns accept (True), the coin is flagged for removal
during the step, the score after the tick has increased by exactly the
coin's fixed value (10), and the coin is gone from the live-entity registry
after the tick, so the live-entity count decreases by exactly 1. -/
theorem coin_collection (st : AppState) (k : KeyState) (ev : ContactEvent)
    (c : Nat) (e : Entity)
    (hrun : st.running = true)
    (hnd : st.entities.Nodup)
    (hmem : c ∈ st.entities)
    (hcoin : st.entity? c = some e) (hkind : e.kind = .coin)
    (hclean : ∀ i ∈ st.entities, markedIn st i = false)
    (heva : ev.a.ctype = 1) (hevb : ev.b.ctype = 2)
    (hevp : ev.b.parent = some c) :
    (player_collect_coin_begin ev st).2 = true ∧
    markedIn (space_step [ev] st) c = true ∧
    (update_simulation [ev] k st).1.score = st.score + coinValue ∧
    c ∉ (update_simulation [ev] k st).1.entities ∧
    (update_simulation [ev] k st).1.entities.length + 1 =
      st.entities.length := by
  have hstep : space_step [ev] st = on_collected c st := by
    show dispatchContact ev st = on_collected c st
    unfold dispatchContact
    rw [if_pos ⟨heva, hevb⟩]
    unfold player_collect_coin_begin
    simp [hevp, hcoin, hkind]
  have hmarked : markedIn (space_step [ev] st) c = true := by
    rw [hstep]
    exact markedIn_on_collected_self hcoin
  -- shape of the tick
  have hfin : (update_simulation [ev] k st).1 =
      sweep_entities
        (handle_keyboard_input k (space_step [ev] st)) := by
    rw [update_simulation_eq _ _ _ hrun]
    show sweep_entities (player_force_phase k _).1 = _
    rw [player_force_phase_state]
  have h2f := handle_keyboard_input_fields k (space_step [ev] st)
  have h1f := space_step_fields [ev] st
  have hents2 : (handle_keyboard_input k (space_step [ev] st)).entities =
      st.entities := h2f.2.2.1.trans h1f.2.1
  have hm2 : ∀ i, markedIn (handle_keyboard_input k (space_step [ev] st)) i =
      markedIn (space_step [ev] st) i :=
    fun i => markedIn_eq_of_heap h2f.2.1 i
  have hnd2 : (handle_keyboard_input k (space_step [ev] st)).entities.Nodup := by
    rw [hents2]; exact hnd
  have hswe : (sweep_entities (handle_keyboard_input k (space_step [ev] st))).entities =
      (handle_keyboard_input k (space_step [ev] st)).entities.filter
        (fun i => !(markedIn (handle_keyboard_input k (space_step [ev] st)) i)) :=
    sweep_entities_spec _ hnd2
  have hmarks : ∀ i ∈ st.entities,
      markedIn (handle_keyboard_input k (space_step [ev] st)) i =
        (if i = c then true else false) := by
    intro i hi
    rw [hm2 i, hstep]
    by_cases hic : i = c
    · subst hic
      rw [if_pos rfl]
      exact markedIn_on_collected_self hcoin
    · rw [if_neg hic, markedIn_on_collected_other hic]
      exact hclean i hi
  have hfilter : (handle_keyboard_input k (space_step [ev] st)).entities.filter
        (fun i => !(markedIn (handle_keyboard_input k (space_step [ev] st)) i)) =
      st.entities.erase c := by
    rw [hents2, hnd.erase_eq_filter c]
    refine List.filter_congr ?_
    intro a ha
    rw [hmarks a ha]
    by_cases hac : a = c <;> simp [hac]
  refine ⟨rfl, hmarked, ?_, ?_, ?_⟩
  · rw [hfin]
    show (sweep_entities (handle_keyboard_input k (space_step [ev] st))).score = _
    unfold sweep_entities
    rw [(foldl_sweepStep_fields _ _).1, h2f.2.2.2.2.1, hstep]
    exact (on_collected_fields c st).2.2.2.2.2
  · rw [hfin, hswe, hfilter]
    intro hcmem
    exact (hnd.mem_erase_iff.mp hcmem).1 rfl
  · rw [hfin, hswe, hfilter, List.length_erase_of_mem hmem]
    have := List.length_pos_of_mem hmem
    omega

/-- Witness for `coin_collection`: a player at identifier 4 and a coin at
identifier 5 in contact. -/
theorem coin_collection_witness :
    (player_collect_coin_begin coinDemoEvent coinDemoState).2 = true ∧
    markedIn (space_step [coinDemoEvent] coinDemoState) 5 = true ∧
    (update_simulation [coinDemoEvent] noKeys coinDemoState).1.score =
      coinDemoState.score + coinValue ∧
    5 ∉ (update_simulation [coinDemoEvent] noKeys coinDemoState).1.entities ∧
    (update_simulation [coinDemoEvent] noKeys coinDemoState).1.entities.length + 1 =
      coinDemoState.entities.length :=
  coin_collection coinDemoState noKeys coinDemoEvent 5
    { eid := 5, kind := .coin, marked_for_removal := false, alive := true }
    rfl (by decide) (by decide) rfl rfl (by decide) rfl rfl rfl

/-- C5: collision handlers never remove a body or a shape from the space
mid-step — dispatching any contact leaves the space unchanged (the coin
handler only sets the `marked_for_removal` flag and the score).  On a
running tick started with no stale flags and a player-kind controllable:
every registered entity flagged during the step is dropped from the
registry and has its body and shape removed from the space by the
tick-boundary sweep, before the render (which draws the post-sweep
registry, containing no flagged entity); and the force application of the
same tick never targets a flagged entity. -/
theorem deferred_removal (events : List ContactEvent) (k : KeyState)
    (st : AppState)
    (hrun : st.running = true)
    (hnd : st.entities.Nodup)
    (hb : st.space.bodies.Nodup) (hsh : st.space.shapes.Nodup)
    (hctrl : ∀ pid, st.controllable = some pid →
      kindIn st pid = some .player ∧ markedIn st pid = false) :
    (∀ (ev : ContactEvent) (s' : AppState),
      (dispatchContact ev s').space = s'.space) ∧
    (∀ i ∈ st.entities, markedIn (space_step events st) i = true →
      i ∉ (update_simulation events k st).1.entities ∧
      i ∉ (update_simulation events k st).1.space.bodies ∧
      i ∉ (update_simulation events k st).1.space.shapes) ∧
    (∀ pid, TickOp.applyPlayerForce pid ∈ (update_simulation events k st).2 →
      markedIn (space_step events st) pid = false) ∧
    (∀ i ∈ (update_simulation events k st).1.entities,
      markedIn (update_simulation events k st).1 i = false) := by
  have hdisp : ∀ (ev : ContactEvent) (s' : AppState),
      (dispatchContact ev s').space = s'.space := by
    intro ev s'
    rcases dispatchContact_cases ev s' with h | ⟨cid, e, _, _, _, h⟩ <;> rw [h]
    exact (on_collected_fields cid s').1
  have hfin : (update_simulation events k st).1 =
      sweep_entities (handle_keyboard_input k (space_step events st)) := by
    rw [update_simulation_eq _ _ _ hrun]
    show sweep_entities (player_force_phase k _).1 = _
    rw [player_force_phase_state]
  have htr : (update_simulation events k st).2 =
      [TickOp.physicsStep, TickOp.sampleInput] ++
        (player_force_phase k
          (handle_keyboard_input k (space_step events st))).2 ++
        [TickOp.entitySweep, TickOp.render] := by
    rw [update_simulation_eq _ _ _ hrun]
  have h2f := handle_keyboard_input_fields k (space_step events st)
  have h1f := space_step_fields events st
  have hents2 : (handle_keyboard_input k (space_step events st)).entities =
      st.entities := h2f.2.2.1.trans h1f.2.1
  have hsp2 : (handle_keyboard_input k (space_step events st)).space =
      st.space := h2f.1.trans h1f.1
  have hm2 : ∀ i, markedIn (handle_keyboard_input k (space_step events st)) i =
      markedIn (space_step events st) i :=
    fun i => markedIn_eq_of_heap h2f.2.1 i
  have hnd2 : (handle_keyboard_input k (space_step events st)).entities.Nodup := by
    rw [hents2]; exact hnd
  have hb2 : (handle_keyboard_input k (space_step events st)).space.bodies.Nodup := by
    rw [hsp2]; exact hb
  have hsh2 : (handle_keyboard_input k (space_step events st)).space.shapes.Nodup := by
    rw [hsp2]; exact hsh
  have hswe : (sweep_entities (handle_keyboard_input k (space_step events st))).entities =
      (handle_keyboard_input k (space_step events st)).entities.filter
        (fun i => !(markedIn (handle_keyboard_input k (space_step events st)) i)) :=
    sweep_entities_spec _ hnd2
  have hspace := foldl_sweepStep_space
    (handle_keyboard_input k (space_step events st)).entities
    (handle_keyboard_input k (space_step events st)) hb2 hsh2
  refine ⟨hdisp, ?_, ?_, ?_⟩
  · intro i hi hmi
    have hmi2 : markedIn (handle_keyboard_input k (space_step events st)) i = true := by
      rw [hm2]; exact hmi
    refine ⟨?_, ?_, ?_⟩
    · rw [hfin, hswe]
      intro hmem
      have := (List.mem_filter.mp hmem).2
      rw [hmi2] at this
      exact absurd this (by decide)
    · rw [hfin]
      have := (hspace.2.2.2.2 i (by rw [hents2]; exact hi) hmi2).1
      exact this
    · rw [hfin]
      exact (hspace.2.2.2.2 i (by rw [hents2]; exact hi) hmi2).2
  · intro pid hop
    rw [htr] at hop
    have hopf : TickOp.applyPlayerForce pid ∈
        (player_force_phase k
          (handle_keyboard_input k (space_step events st))).2 := by
      rcases List.mem_append.mp hop with hop1 | hop2
      · rcases List.mem_append.mp hop1 with hop3 | hop4
        · exact absurd hop3 (by simp)
        · exact hop4
      · exact absurd hop2 (by simp)
    obtain ⟨q, heq, hc, _⟩ := player_force_phase_ops k _ _ hopf
    have hq : pid = q := by injection heq
    subst hq
    have hcst : st.controllable = some pid := by
      rw [← h1f.2.2.1, ← h2f.2.2.2.1]
      exact hc
    obtain ⟨hkp, hmp⟩ := hctrl pid hcst
    cases hcase : markedIn (space_step events st) pid with
    | false => rfl
    | true =>
        rcases markedIn_space_step events st pid hcase with h1 | h1
        · rw [hmp] at h1
          exact absurd h1 (by decide)
        · rw [hkp] at h1
          exact absurd h1 (by decide)
  · intro i hi
    rw [hfin, hswe] at hi
    have hmi := (List.mem_filter.mp hi).2
    have : markedIn (sweep_entities (handle_keyboard_input k (space_step events st))) i =
        markedIn (handle_keyboard_input k (space_step events st)) i := by
      unfold sweep_entities
      exact foldl_sweepStep_markedIn _ _ i
    rw [hfin, this]
    cases hcase : markedIn (handle_keyboard_input k (space_step events st)) i with
    | false => rfl
    | true =>
        rw [hcase] at hmi
        exact absurd hmi (by decide)

/-- Witness for `deferred_removal` on the player-and-coin state with the
player–coin contact. -/
theorem deferred_removal_witness :
    (∀ (ev : ContactEvent) (s' : AppState),
      (dispatchContact ev s').space = s'.space) ∧
    (∀ i ∈ coinDemoState.entities,
      markedIn (space_step [coinDemoEvent] coinDemoState) i = true →
      i ∉ (update_simulation [coinDemoEvent] noKeys coinDemoState).1.entities ∧
      i ∉ (update_simulation [coinDemoEvent] noKeys coinDemoState).1.space.bodies ∧
      i ∉ (update_simulation [coinDemoEvent] noKeys coinDemoState).1.space.shapes) ∧
    (∀ pid, TickOp.applyPlayerForce pid ∈
        (update_simulation [coinDemoEvent] noKeys coinDemoState).2 →
      markedIn (space_step [coinDemoEvent] coinDemoState) pid = false) ∧
    (∀ i ∈ (update_simulation [coinDemoEvent] noKeys coinDemoState).1.entities,
      markedIn (update_simulation [coinDemoEvent] noKeys coinDemoState).1 i = false) :=
  deferred_removal [coinDemoEvent] noKeys coinDemoState rfl (by decide)
    (by decide) (by decide)
    (fun pid hp => by
      injection hp with h
      subst h
      exact ⟨rfl, rfl⟩)

/- Supporting lemmas: reset and spawn. -/

theorem boundaryIds_lt : ∀ b ∈ boundaryIds, b < 4 := by decide

theorem foldl_kill_fields :
    ∀ (l : List Nat) (acc : AppState),
      (l.foldl (fun a i => kill_entity i a) acc).entities = acc.entities ∧
      (l.foldl (fun a i => kill_entity i a) acc).score = acc.score ∧
      (l.foldl (fun a i => kill_entity i a) acc).controllable =
        acc.controllable ∧
      (l.foldl (fun a i => kill_entity i a) acc).cam = acc.cam ∧
      (l.foldl (fun a i => kill_entity i a) acc).running = acc.running ∧
      (l.foldl (fun a i => kill_entity i a) acc).nextId = acc.nextId ∧
      (l.foldl (fun a i => kill_entity i a) acc).space.constraints =
        acc.space.constraints ∧
      (l.foldl (fun a i => kill_entity i a) acc).space.gravity =
        acc.space.gravity := by
  intro l
  induction l with
  | nil => intro acc; exact ⟨rfl, rfl, rfl, rfl, rfl, rfl, rfl, rfl⟩
  | cons j t ih =>
      intro acc
      rw [List.foldl_cons]
      have h1 := kill_entity_frame j acc
      have h2 := ih (kill_entity j acc)
      exact ⟨h2.1.trans h1.1, h2.2.1.trans h1.2.1, h2.2.2.1.trans h1.2.2.1,
        h2.2.2.2.1.trans h1.2.2.2.1, h2.2.2.2.2.1.trans h1.2.2.2.2.1,
        h2.2.2.2.2.2.1.trans h1.2.2.2.2.2.1,
        h2.2.2.2.2.2.2.1.trans h1.2.2.2.2.2.2.2.2.1,
        h2.2.2.2.2.2.2.2.trans h1.2.2.2.2.2.2.2.2.2⟩

theorem foldl_kill_space :
    ∀ (l : List Nat) (acc : AppState),
      acc.space.bodies.Nodup → acc.space.shapes.Nodup →
      (l.foldl (fun a i => kill_entity i a) acc).space.bodies.Nodup ∧
      (l.foldl (fun a i => kill_entity i a) acc).space.shapes.Nodup ∧
      (∀ x, x ∈ (l.foldl (fun a i => kill_entity i a) acc).space.bodies →
        x ∈ acc.space.bodies) ∧
      (∀ x, x ∈ (l.foldl (fun a i => kill_entity i a) acc).space.shapes →
        x ∈ acc.space.shapes) ∧
      (∀ i ∈ l, i ∉ (l.foldl (fun a i => kill_entity i a) acc).space.bodies ∧
        i ∉ (l.foldl (fun a i => kill_entity i a) acc).space.shapes) ∧
      (∀ x, x ∈ acc.space.shapes → x ∉ l →
        x ∈ (l.foldl (fun a i => kill_entity i a) acc).space.shapes) := by
  intro l
  induction l with
  | nil =>
      intro acc hb hs
      exact ⟨hb, hs, fun x hx => hx, fun x hx => hx,
        fun i hi => absurd hi (by simp), fun x hx _ => hx⟩
  | cons j t ih =>
      intro acc hb hs
      rw [List.foldl_cons]
      have hk := kill_entity_space j acc hb hs
      have h2 := ih (kill_entity j acc) hk.1 hk.2.1
      refine ⟨h2.1, h2.2.1,
        fun x hx => hk.2.2.2.2.1 x (h2.2.2.1 x hx),
        fun x hx => hk.2.2.2.2.2.1 x (h2.2.2.2.1 x hx), ?_, ?_⟩
      · intro i hi
        rcases List.mem_cons.mp hi with rfl | hit
        · exact ⟨fun hm => hk.2.2.1 (h2.2.2.1 i hm),
            fun hm => hk.2.2.2.1 (h2.2.2.2.1 i hm)⟩
        · exact h2.2.2.2.2.1 i hit
      · intro x hx hxl
        have hxj : x ≠ j := fun hxj => hxl (hxj ▸ List.mem_cons_self j t)
        have hxt : x ∉ t := fun hxt => hxl (List.mem_cons_of_mem j hxt)
        exact h2.2.2.2.2.2 x (hk.2.2.2.2.2.2.2 x hxj hx) hxt

theorem reset_simulation_spec (s : AppState)
    (hb : s.space.bodies.Nodup) (hsh : s.space.shapes.Nodup) :
    (reset_simulation s).entities = [] ∧
    (reset_simulation s).controllable = none ∧
    (reset_simulation s).score = 0 ∧
    (reset_simulation s).cam.offset_x = 0 ∧
    (reset_simulation s).cam.offset_y = 0 ∧
    (reset_simulation s).cam.zoom = 1 ∧
    (∀ i ∈ s.entities, i ∉ (reset_simulation s).space.bodies ∧
      i ∉ (reset_simulation s).space.shapes) ∧
    (reset_simulation s).space.gravity = s.space.gravity ∧
    (reset_simulation s).space.constraints = s.space.constraints ∧
    (∀ x ∈ s.space.shapes, x ∉ s.entities →
      x ∈ (reset_simulation s).space.shapes) := by
  have hsp := foldl_kill_space s.entities s hb hsh
  have hf := foldl_kill_fields s.entities s
  exact ⟨rfl, rfl, rfl, rfl, rfl, rfl, hsp.2.2.2.2.1,
    hf.2.2.2.2.2.2.2, hf.2.2.2.2.2.2.1, hsp.2.2.2.2.2⟩

theorem spawnInv_init : SpawnInv initState :=
  ⟨by decide, by decide, by decide, by decide, by decide, by decide,
   by decide, by decide, by decide, fun _ h => Option.noConfusion h,
   by decide, by decide⟩

theorem spawnInv_spawnObject (k : EntityKind) (s : AppState) (h : SpawnInv s) :
    SpawnInv (spawnObject k s) := by
  obtain ⟨hb, hs, he, hbl, hsl, hel, heg, hf, hbp, hcg, hbsub, hssub⟩ := h
  refine ⟨?_, ?_, ?_, ?_, ?_, ?_, ?_, ?_, ?_, ?_, ?_, ?_⟩
  · rw [show (spawnObject k s).space.bodies =
        s.space.bodies ++ [s.nextId] from rfl, List.nodup_append]
    refine ⟨hb, List.nodup_singleton _, fun a ha hmem => ?_⟩
    rw [List.mem_singleton] at hmem
    subst hmem
    exact absurd (hbl _ ha) (lt_irrefl _)
  · rw [show (spawnObject k s).space.shapes =
        s.space.shapes ++ [s.nextId] from rfl, List.nodup_append]
    refine ⟨hs, List.nodup_singleton _, fun a ha hmem => ?_⟩
    rw [List.mem_singleton] at hmem
    subst hmem
    exact absurd (hsl _ ha) (lt_irrefl _)
  · rw [show (spawnObject k s).entities =
        s.entities ++ [s.nextId] from rfl, List.nodup_append]
    refine ⟨he, List.nodup_singleton _, fun a ha hmem => ?_⟩
    rw [List.mem_singleton] at hmem
    subst hmem
    exact absurd (hel _ ha) (lt_irrefl _)
  · intro b hbm
    rcases List.mem_append.mp hbm with hbo | hbn
    · exact Nat.lt_succ_of_lt (hbl b hbo)
    · rw [List.mem_singleton] at hbn
      subst hbn
      exact Nat.lt_succ_self _
  · intro b hbm
    rcases List.mem_append.mp hbm with hbo | hbn
    · exact Nat.lt_succ_of_lt (hsl b hbo)
    · rw [List.mem_singleton] at hbn
      subst hbn
      exact Nat.lt_succ_self _
  · intro b hbm
    rcases List.mem_append.mp hbm with hbo | hbn
    · exact Nat.lt_succ_of_lt (hel b hbo)
    · rw [List.mem_singleton] at hbn
      subst hbn
      exact Nat.lt_succ_self _
  · intro b hbm
    rcases List.mem_append.mp hbm with hbo | hbn
    · exact heg b hbo
    · rw [List.mem_singleton] at hbn
      subst hbn
      exact hf
  · exact Nat.le_succ_of_le hf
  · intro b hbm
    exact List.mem_append_left _ (hbp b hbm)
  · exact hcg
  · intro b hbm
    rcases List.mem_append.mp hbm with hbo | hbn
    · exact List.mem_append_left _ (hbsub b hbo)
    · exact List.mem_append_right _ hbn
  · intro x hxm
    rcases List.mem_append.mp hxm with hxo | hxn
    · rcases hssub x hxo with hxe | hxb
      · exact Or.inl (List.mem_append_left _ hxe)
      · exact Or.inr hxb
    · exact Or.inl (List.mem_append_right _ hxn)

theorem spawnInv_kill_erase (pid : Nat) (s : AppState) (h : SpawnInv s)
    (hpid : 4 ≤ pid) :
    SpawnInv { kill_entity pid s with
               entities := (kill_entity pid s).entities.erase pid } := by
  obtain ⟨hb, hs, he, hbl, hsl, hel, heg, hf, hbp, hcg, hbsub, hssub⟩ := h
  have hk := kill_entity_space pid s hb hs
  have hfr := kill_entity_frame pid s
  refine ⟨hk.1, hk.2.1, ?_, ?_, ?_, ?_, ?_, ?_, ?_, ?_, ?_, ?_⟩
  · show ((kill_entity pid s).entities.erase pid).Nodup
    rw [hfr.1]
    exact he.erase pid
  · intro b hbm
    show b < (kill_entity pid s).nextId
    rw [hfr.2.2.2.2.2.1]
    exact hbl b (hk.2.2.2.2.1 b hbm)
  · intro b hbm
    show b < (kill_entity pid s).nextId
    rw [hfr.2.2.2.2.2.1]
    exact hsl b (hk.2.2.2.2.2.1 b hbm)
  · intro i hi
    show i < (kill_entity pid s).nextId
    rw [hfr.2.2.2.2.2.1]
    have hi' : i ∈ (kill_entity pid s).entities := List.mem_of_mem_erase hi
    rw [hfr.1] at hi'
    exact hel i hi'
  · intro i hi
    have hi' : i ∈ (kill_entity pid s).entities := List.mem_of_mem_erase hi
    rw [hfr.1] at hi'
    exact heg i hi'
  · show 4 ≤ (kill_entity pid s).nextId
    rw [hfr.2.2.2.2.2.1]
    exact hf
  · intro b hbm
    have hblt := boundaryIds_lt b hbm
    have hbne : b ≠ pid := by omega
    exact hk.2.2.2.2.2.2.2 b hbne (hbp b hbm)
  · intro q hq
    have hq' : (kill_entity pid s).controllable = some q := hq
    rw [hfr.2.2.1] at hq'
    exact hcg q hq'
  · intro b hbm
    have hbne : b ≠ pid := by
      intro hbe
      subst hbe
      exact hk.2.2.1 hbm
    have hbs : b ∈ s.space.bodies := hk.2.2.2.2.1 b hbm
    show b ∈ (kill_entity pid s).entities.erase pid
    rw [hfr.1]
    exact he.mem_erase_iff.mpr ⟨hbne, hbsub b hbs⟩
  · intro x hxm
    have hxs : x ∈ s.space.shapes := hk.2.2.2.2.2.1 x hxm
    rcases hssub x hxs with hxe | hxb
    · have hxne : x ≠ pid := by
        intro hxe2
        subst hxe2
        exact hk.2.2.2.1 hxm
      left
      show x ∈ (kill_entity pid s).entities.erase pid
      rw [hfr.1]
      exact he.mem_erase_iff.mpr ⟨hxne, hxe⟩
    · exact Or.inr hxb

theorem retireControllable_cases (s : AppState) :
    retireControllable s = s ∨
    ∃ pid, s.controllable = some pid ∧
      retireControllable s =
        { kill_entity pid s with
          entities := (kill_entity pid s).entities.erase pid } := by
  unfold retireControllable
  rcases hc : s.controllable with _ | pid
  · exact Or.inl rfl
  · by_cases ha : (s.entity? pid).any (fun e => e.alive) = true
    · refine Or.inr ⟨pid, rfl, ?_⟩
      show (if (s.entity? pid).any (fun e => e.alive) = true then
          { kill_entity pid s with
            entities := (kill_entity pid s).entities.erase pid }
        else s) = _
      rw [if_pos ha]
    · left
      show (if (s.entity? pid).any (fun e => e.alive) = true then
          { kill_entity pid s with
            entities := (kill_entity pid s).entities.erase pid }
        else s) = s
      rw [if_neg ha]

theorem spawnInv_retire (s : AppState) (h : SpawnInv s) :
    SpawnInv (retireControllable s) := by
  rcases retireControllable_cases s with hr | ⟨pid, hc, hr⟩ <;> rw [hr]
  · exact h
  · exact spawnInv_kill_erase pid s h (h.ctrlGe pid hc)

theorem spawnInv_add_player (s : AppState) (h : SpawnInv s) :
    SpawnInv (add_player_gui s) := by
  have h1 := spawnInv_retire s h
  have h2 := spawnInv_spawnObject .player _ h1
  obtain ⟨b1, b2, b3, b4, b5, b6, b7, b8, b9, _, b10, b11⟩ := h2
  refine ⟨b1, b2, b3, b4, b5, b6, b7, b8, b9, ?_, b10, b11⟩
  intro q hq
  have hq' : some (retireControllable s).nextId = some q := hq
  injection hq' with hq'
  subst hq'
  exact h1.fourLe

theorem spawnInv_spawnOne (k : EntityKind) (s : AppState) (h : SpawnInv s) :
    SpawnInv (spawnOne k s) := by
  cases k with
  | player => exact spawnInv_add_player s h
  | box => exact spawnInv_spawnObject _ s h
  | bouncer => exact spawnInv_spawnObject _ s h
  | coin => exact spawnInv_spawnObject _ s h
  | ball => exact spawnInv_spawnObject _ s h

theorem spawnInv_spawnMany :
    ∀ (ks : List EntityKind) (s : AppState), SpawnInv s →
      SpawnInv (spawnMany ks s) := by
  intro ks
  induction ks with
  | nil => intro s h; exact h
  | cons k t ih =>
      intro s h
      unfold spawnMany at ih ⊢
      rw [List.foldl_cons]
      exact ih (spawnOne k s) (spawnInv_spawnOne k s h)

theorem retireControllable_gravity (s : AppState) :
    (retireControllable s).space.gravity = s.space.gravity := by
  rcases retireControllable_cases s with hr | ⟨pid, _, hr⟩ <;> rw [hr]
  exact (kill_entity_frame pid s).2.2.2.2.2.2.2.2.2

theorem spawnOne_gravity (k : EntityKind) (s : AppState) :
    (spawnOne k s).space.gravity = s.space.gravity := by
  cases k with
  | player =>
      show (add_player_gui s).space.gravity = s.space.gravity
      unfold add_player_gui
      show (retireControllable s).space.gravity = s.space.gravity
      exact retireControllable_gravity s
  | box => rfl
  | bouncer => rfl
  | coin => rfl
  | ball => rfl

theorem spawnMany_gravity :
    ∀ (ks : List EntityKind) (s : AppState),
      (spawnMany ks s).space.gravity = s.space.gravity := by
  intro ks
  induction ks with
  | nil => intro s; rfl
  | cons k t ih =>
      intro s
      unfold spawnMany at ih ⊢
      rw [List.foldl_cons]
      exact (ih (spawnOne k s)).trans (spawnOne_gravity k s)

/-- C6: spawning any number of entities of any variants and then calling
reset yields an empty live-entity registry (count 0), score 0, no
controllable, the camera restored to pan (0,0) and zoom 1, and every
spawned entity's body and shape removed from the space. -/
theorem reset_after_spawn (ks : List EntityKind) :
    (reset_simulation (spawnMany ks initState)).entities = [] ∧
    (reset_simulation (spawnMany ks initState)).score = 0 ∧
    (reset_simulation (spawnMany ks initState)).controllable = none ∧
    (reset_simulation (spawnMany ks initState)).cam.offset_x = 0 ∧
    (reset_simulation (spawnMany ks initState)).cam.offset_y = 0 ∧
    (reset_simulation (spawnMany ks initState)).cam.zoom = 1 ∧
    (∀ i ∈ (spawnMany ks initState).entities,
      i ∉ (reset_simulation (spawnMany ks initState)).space.bodies ∧
      i ∉ (reset_simulation (spawnMany ks initState)).space.shapes) ∧
    (reset_simulation (spawnMany ks initState)).space.bodies = [] ∧
    (∀ x ∈ (reset_simulation (spawnMany ks initState)).space.shapes,
      x ∈ boundaryIds) := by
  have hinv := spawnInv_spawnMany ks initState spawnInv_init
  have hspec := reset_simulation_spec _ hinv.bodiesNodup hinv.shapesNodup
  have hsp := foldl_kill_space (spawnMany ks initState).entities
    (spawnMany ks initState) hinv.bodiesNodup hinv.shapesNodup
  have hbodies : (reset_simulation (spawnMany ks initState)).space.bodies = [] := by
    rcases hres : (reset_simulation (spawnMany ks initState)).space.bodies with
      _ | ⟨b, t⟩
    · rfl
    · exfalso
      have hbmem : b ∈ (reset_simulation (spawnMany ks initState)).space.bodies := by
        rw [hres]
        exact List.mem_cons_self b t
      have hbmem' : b ∈ ((spawnMany ks initState).entities.foldl
          (fun a i => kill_entity i a) (spawnMany ks initState)).space.bodies :=
        hbmem
      have hsb := hsp.2.2.1 b hbmem'
      have hbe := hinv.bodiesSub b hsb
      exact (hsp.2.2.2.2.1 b hbe).1 hbmem'
  have hshapes : ∀ x ∈ (reset_simulation (spawnMany ks initState)).space.shapes,
      x ∈ boundaryIds := by
    intro x hx
    have hx' : x ∈ ((spawnMany ks initState).entities.foldl
        (fun a i => kill_entity i a) (spawnMany ks initState)).space.shapes := hx
    have hxs := hsp.2.2.2.1 x hx'
    rcases hinv.shapesSub x hxs with hxe | hxb
    · exact absurd hx' ((hsp.2.2.2.2.1 x hxe).2)
    · exact hxb
  exact ⟨hspec.1, hspec.2.2.1, hspec.2.1, hspec.2.2.2.1, hspec.2.2.2.2.1,
    hspec.2.2.2.2.2.1, hspec.2.2.2.2.2.2.1, hbodies, hshapes⟩

/-- C10: reset leaves the space's gravity vector untouched (it stays
whatever it was after spawning — (0, 900) from construction — rather than
being restored to a default), leaves the constraint set untouched, and the
four static world-boundary segments attached to the space's built-in static
body remain in the space after reset. -/
theorem reset_preserves_gravity_and_boundaries (ks : List EntityKind) :
    (reset_simulation (spawnMany ks initState)).space.gravity =
      (spawnMany ks initState).space.gravity ∧
    (spawnMany ks initState).space.gravity = (0, 900) ∧
    (reset_simulation (spawnMany ks initState)).space.constraints =
      (spawnMany ks initState).space.constraints ∧
    (∀ b ∈ boundaryIds,
      b ∈ (reset_simulation (spawnMany ks initState)).space.shapes) := by
  have hinv := spawnInv_spawnMany ks initState spawnInv_init
  have hspec := reset_simulation_spec _ hinv.bodiesNodup hinv.shapesNodup
  refine ⟨hspec.2.2.2.2.2.2.2.1, ?_, hspec.2.2.2.2.2.2.2.2.1, ?_⟩
  · rw [spawnMany_gravity]
    rfl
  · intro b hbm
    refine hspec.2.2.2.2.2.2.2.2.2 b (hinv.boundariesPresent b hbm) ?_
    intro hbe
    have := hinv.entsGe b hbe
    have := boundaryIds_lt b hbm
    omega

/- C7: pointer press and the drag joint. -/

theorem ne_append_singleton (l : List Nat) (j : Nat) : l ≠ l ++ [j] := by
  intro hl
  have := congrArg List.length hl
  simp at this

/-- C7: on a pointer press at screen position P on a running state, a drag
pivot joint is appended to the space's constraint set if and only if the
nearest-point query — invoked at the world position screen_to_world(P)
with query radius 0 — returns a shape whose body is DYNAMIC; otherwise
(empty space, or a shape on a STATIC or KINEMATIC body) the state is left
entirely unchanged, in particular the constraint set. -/
theorem mouse_press_drag_joint (q : (ℚ × ℚ) → ℚ → Option ShapeHit)
    (P : ℚ × ℚ) (st : AppState) (h : st.running = true) :
    ((∃ j, (on_mouse_press q P st).space.constraints =
        st.space.constraints ++ [j]) ↔
      (∃ hit, q (st.cam.screen_to_world P) 0 = some hit ∧
        hit.bodyType = .dynamic)) ∧
    ((¬ ∃ hit, q (st.cam.screen_to_world P) 0 = some hit ∧
        hit.bodyType = .dynamic) → on_mouse_press q P st = st) := by
  unfold on_mouse_press
  simp only [h, not_true, if_false]
  cases hq : q (st.cam.screen_to_world P) 0 with
  | none =>
      constructor
      · constructor
        · rintro ⟨j, hj⟩
          exact absurd hj (ne_append_singleton _ j)
        · rintro ⟨hit, hhit, _⟩
          exact absurd hhit (by simp)
      · intro _
        rfl
  | some hit =>
      dsimp only
      by_cases hd : hit.bodyType = .dynamic
      · rw [if_pos hd]
        constructor
        · constructor
          · intro _
            exact ⟨hit, rfl, hd⟩
          · intro _
            exact ⟨st.nextId, rfl⟩
        · intro hcon
          exact absurd ⟨hit, rfl, hd⟩ hcon
      · rw [if_neg hd]
        constructor
        · constructor
          · rintro ⟨j, hj⟩
            exact absurd hj (ne_append_singleton _ j)
          · rintro ⟨hit', hhit', hd'⟩
            injection hhit' with hh
            subst hh
            exact absurd hd' hd
        · intro _
          rfl

/-- Witness for `mouse_press_drag_joint`: a query that reports a dynamic
shape at every point, pressed at the view origin of the initial state. -/
theorem mouse_press_drag_joint_witness :
    ((∃ j, (on_mouse_press (fun _ _ => some { sid := 7, bodyType := .dynamic })
        (0, 0) initState).space.constraints =
        initState.space.constraints ++ [j]) ↔
      (∃ hit, (fun (_ : ℚ × ℚ) (_ : ℚ) =>
          some ({ sid := 7, bodyType := .dynamic } : ShapeHit))
          (initState.cam.screen_to_world (0, 0)) 0 = some hit ∧
        hit.bodyType = .dynamic)) ∧
    ((¬ ∃ hit, (fun (_ : ℚ × ℚ) (_ : ℚ) =>
          some ({ sid := 7, bodyType := .dynamic } : ShapeHit))
          (initState.cam.screen_to_world (0, 0)) 0 = some hit ∧
        hit.bodyType = .dynamic) →
      on_mouse_press (fun _ _ => some { sid := 7, bodyType := .dynamic })
        (0, 0) initState = initState) :=
  mouse_press_drag_joint (fun _ _ => some { sid := 7, bodyType := .dynamic })
    (0, 0) initState rfl

/- C8: idempotent removal. -/

theorem entity?_heapSet_ne (s : AppState) (jj x : Nat) (f : Entity → Entity)
    (hf : ∀ e, (f e).eid = e.eid) (hx : x ≠ jj) :
    (s.heapSet jj f).entity? x = s.entity? x := by
  rw [entity?_heapSet s jj x f hf]
  cases h : s.entity? x with
  | none => rfl
  | some e =>
      have he := entity?_eid h
      have : ¬ e.eid = jj := by rw [he]; exact hx
      simp [this]

/-- C8: removal and detach are idempotent.  Killing an entity whose body
and shape at identifier `i` are already absent from the space completes
without error (the checked pipeline, with the external remove's failure
made explicit, returns a value), leaves the space and the registry exactly
as they were, leaves the score unchanged, and leaves every other entity
object untouched.  Likewise, releasing a drag joint that is no longer in
the space's constraint set is a no-op that completes without error. -/
theorem removal_idempotent (i : Nat) (s : AppState) (s2 : AppState) (j : Joint)
    (hb : i ∉ s.space.bodies) (hs : i ∉ s.space.shapes)
    (hj : s2.mouseJoint = some j) (hjc : j.jid ∉ s2.space.constraints)
    (hrun : s2.running = true) :
    kill_entity_checked i s = some (kill_entity i s) ∧
    (kill_entity i s).space = s.space ∧
    (kill_entity i s).entities = s.entities ∧
    (kill_entity i s).score = s.score ∧
    (∀ x, x ≠ i → (kill_entity i s).entity? x = s.entity? x) ∧
    on_mouse_release_checked s2 = some s2 ∧
    on_mouse_release s2 = s2 := by
  refine ⟨kill_entity_checked_eq i s, ?_, (kill_entity_frame i s).1,
    (kill_entity_frame i s).2.1, ?_, ?_, ?_⟩
  · simp [kill_entity, AppState.heapSet, hb, hs]
  · intro x hx
    have hform : kill_entity i s =
        ({ s with space := (kill_entity i s).space }).heapSet i
          (fun e => { e with alive := false }) := by
      simp [kill_entity, AppState.heapSet, hb, hs]
    rw [hform, entity?_heapSet_ne _ i x
      (fun e => { e with alive := false }) (fun e => rfl) hx]
    rfl
  · simp [on_mouse_release_checked, hrun, hj, hjc]
  · simp [on_mouse_release, hrun, hj, hjc]

/-- Witness for `removal_idempotent`: identifier 9 is absent from the
initial space, and the stale-joint state's joint 11 is not in the
constraint set. -/
theorem removal_idempotent_witness :
    kill_entity_checked 9 initState = some (kill_entity 9 initState) ∧
    (kill_entity 9 initState).space = initState.space ∧
    (kill_entity 9 initState).entities = initState.entities ∧
    (kill_entity 9 initState).score = initState.score ∧
    (∀ x, x ≠ 9 → (kill_entity 9 initState).entity? x = initState.entity? x) ∧
    on_mouse_release_checked releaseDemoState = some releaseDemoState ∧
    on_mouse_release releaseDemoState = releaseDemoState :=
  removal_idempotent 9 initState releaseDemoState
    { jid := 11, maxForce := 0, errorBias := 0 }
    (by decide) (by decide) rfl (by decide) rfl

/- C4: the bouncer impulse. -/

theorem vlen_eq_zero_iff (v : ℝ × ℝ) : vlen v = 0 ↔ v.1 = 0 ∧ v.2 = 0 := by
  unfold vlen
  constructor
  · intro h
    have hle := Real.sqrt_eq_zero'.mp h
    constructor <;> nlinarith [sq_nonneg v.1, sq_nonneg v.2]
  · rintro ⟨h1, h2⟩
    rw [h1, h2]
    norm_num

theorem vlen_normalized (v : ℝ × ℝ) (h : vlen v ≠ 0) :
    vlen (normalized v) = 1 := by
  have hS : 0 < v.1 ^ 2 + v.2 ^ 2 := by
    rcases lt_or_eq_of_le (by positivity : (0:ℝ) ≤ v.1 ^ 2 + v.2 ^ 2) with hlt | heq
    · exact hlt
    · exfalso
      apply h
      unfold vlen
      rw [← heq, Real.sqrt_zero]
  unfold normalized
  rw [if_pos h]
  unfold vlen at h ⊢
  have harg : (v.1 / Real.sqrt (v.1 ^ 2 + v.2 ^ 2)) ^ 2 +
      (v.2 / Real.sqrt (v.1 ^ 2 + v.2 ^ 2)) ^ 2 = 1 := by
    rw [div_pow, div_pow, Real.sq_sqrt hS.le, div_add_div_same, div_self hS.ne']
  rw [harg, Real.sqrt_one]

theorem vlen_sub_ne_zero {a b : ℝ × ℝ} (h : b ≠ a) :
    vlen (b.1 - a.1, b.2 - a.2) ≠ 0 := by
  intro h0
  obtain ⟨h1, h2⟩ := (vlen_eq_zero_iff _).mp h0
  have h1' : b.1 - a.1 = 0 := h1
  have h2' : b.2 - a.2 = 0 := h2
  apply h
  have hx : b.1 = a.1 := by linarith
  have hy : b.2 = a.2 := by linarith
  exact Prod.ext hx hy

theorem unitFromTo_eq_normalized (a b : ℝ × ℝ)
    (h : vlen (b.1 - a.1, b.2 - a.2) ≠ 0) :
    unitFromTo a b = normalized (b.1 - a.1, b.2 - a.2) := by
  unfold unitFromTo normalized
  rw [if_pos h]

/-- C4: whenever any shape begins contact with a BOUNCER shape (whose
parent is a `BouncerEntity`), with the two body centers distinct: if the
other shape's body is DYNAMIC, the handler applies, at the other body's
local origin (0, 0), the impulse equal to the unit vector from the
bouncer's body center to the other body's center scaled by the configured
bounce magnitude (500000) times the fixed time step (1/60); if the other
body is not DYNAMIC, no impulse is applied; in both cases the handler
returns accept (True). -/
theorem bouncer_impulse (sa sb : PhysShape)
    (hpar : (bouncerSideOf sa sb).1.parentKind = some .bouncer)
    (hne : (bouncerSideOf sa sb).2.pos ≠ (bouncerSideOf sa sb).1.pos) :
    ((bouncerSideOf sa sb).2.bodyType = .dynamic →
      (bouncer_begin sa sb).1 =
        some (((unitFromTo (bouncerSideOf sa sb).1.pos
                  (bouncerSideOf sa sb).2.pos).1 *
                 (bounce_force * TIME_STEP),
               (unitFromTo (bouncerSideOf sa sb).1.pos
                  (bouncerSideOf sa sb).2.pos).2 *
                 (bounce_force * TIME_STEP)), (0, 0)) ∧
      vlen (unitFromTo (bouncerSideOf sa sb).1.pos
              (bouncerSideOf sa sb).2.pos) = 1) ∧
    ((bouncerSideOf sa sb).2.bodyType ≠ .dynamic →
      (bouncer_begin sa sb).1 = none) ∧
    (bouncer_begin sa sb).2 = true := by
  have hv : vlen ((bouncerSideOf sa sb).2.pos.1 - (bouncerSideOf sa sb).1.pos.1,
      (bouncerSideOf sa sb).2.pos.2 - (bouncerSideOf sa sb).1.pos.2) ≠ 0 :=
    vlen_sub_ne_zero hne
  have hu := unitFromTo_eq_normalized (bouncerSideOf sa sb).1.pos
    (bouncerSideOf sa sb).2.pos hv
  have hbb : bouncer_begin sa sb =
      (bouncer_on_collision (bouncerSideOf sa sb).1.pos
        (bouncerSideOf sa sb).2, true) := by
    unfold bouncer_begin
    show (if (bouncerSideOf sa sb).1.parentKind = some EntityKind.bouncer then
        (bouncer_on_collision (bouncerSideOf sa sb).1.pos
          (bouncerSideOf sa sb).2, true)
      else (none, true)) = _
    rw [if_pos hpar]
  refine ⟨?_, ?_, ?_⟩
  · intro hdyn
    constructor
    · rw [hbb]
      show bouncer_on_collision (bouncerSideOf sa sb).1.pos
          (bouncerSideOf sa sb).2 = _
      unfold bouncer_on_collision
      rw [if_pos hdyn, hu]
      simp only [mul_assoc]
    · rw [hu]
      exact vlen_normalized _ hv
  · intro hnd
    rw [hbb]
    show bouncer_on_collision (bouncerSideOf sa sb).1.pos
        (bouncerSideOf sa sb).2 = none
    unfold bouncer_on_collision
    rw [if_neg hnd]
  · rw [hbb]

/-- Witness for `bouncer_impulse`: a static bouncer at (0, 0) with parent a
`BouncerEntity`, hit by a dynamic ball at (30, 40). -/
theorem bouncer_impulse_witness :
    (demoBall.bodyType = .dynamic →
      (bouncer_begin demoBouncer demoBall).1 =
        some (((unitFromTo demoBouncer.pos demoBall.pos).1 *
                 (bounce_force * TIME_STEP),
               (unitFromTo demoBouncer.pos demoBall.pos).2 *
                 (bounce_force * TIME_STEP)), (0, 0)) ∧
      vlen (unitFromTo demoBouncer.pos demoBall.pos) = 1) ∧
    (demoBall.bodyType ≠ .dynamic →
      (bouncer_begin demoBouncer demoBall).1 = none) ∧
    (bouncer_begin demoBouncer demoBall).2 = true :=
  bouncer_impulse demoBouncer demoBall rfl
    (by
      intro hcon
      have h1 : (30 : ℝ) = 0 := congrArg Prod.fst hcon
      norm_num at h1)

end PhysicsSim
